import Mathlib

/-!
Verification of the natural-language specification of the ecw-broker-scraper
repository against a shallow embedding of its Python sources
(`ecw_scraper_data.py`, `ecw_scraper_google_sheets.py`, `bizquest_scraper.py`,
`businessbroker_scraper.py`, `crexi_scraper.py`, `ibba_scraper.py`).

Conventions of the embedding:
* Python strings are Lean `String`s; Python `str.strip`, `str.lower`,
  `str.split`, substring containment and `re` regular expressions are embedded
  over ASCII (the repository's keyword lists, state table, sentinels and
  dedup keys are all ASCII).
* The `re` patterns used by the scrapers are embedded with a small
  backtracking matcher (`mrun`) whose alternation/greedy/lazy priorities
  mirror Python's `re` module; an explicit fuel bounds the backtracking so
  that every function stays total and executable.
* Browser/DOM-dependent functions are embedded over the data those functions
  actually inspect (the text of the page, the list of `tel:` anchors, the
  outcome of each page fetch), with the surrounding pure control flow
  translated from the source.
-/

namespace ECW

/-! ## Python string primitives -/

/-- The whitespace characters recognised by Python's `str.strip` / `str.split`
and by the regex class `\s`, restricted to ASCII. -/
def pyWs (c : Char) : Bool :=
  c = ' ' || c = '\t' || c = '\n' || c = '\r' || c = '\x0b' || c = '\x0c'

/-- ASCII letter, the regex class `[A-Za-z]`. -/
def isAsciiAlpha (c : Char) : Bool :=
  ('a' ≤ c && c ≤ 'z') || ('A' ≤ c && c ≤ 'Z')

/-- ASCII digit, the regex class `\d`. -/
def isAsciiDigit (c : Char) : Bool := '0' ≤ c && c ≤ '9'

/-- Word character for the regex assertion `\b`, ASCII part of `\w`. -/
def isWordChar (c : Char) : Bool := isAsciiAlpha c || isAsciiDigit c || c = '_'

/-- `str.strip` on a character list: drop whitespace from both ends. -/
def pyStripList (cs : List Char) : List Char :=
  ((cs.dropWhile pyWs).reverse.dropWhile pyWs).reverse

/-- Python `str.strip()`. -/
def pyStrip (s : String) : String := String.mk (pyStripList s.toList)

/-- Python `str.lower()` (ASCII). -/
def pyLower (s : String) : String := String.mk (s.toList.map Char.toLower)

/-- Python `str.upper()` (ASCII). -/
def pyUpper (s : String) : String := String.mk (s.toList.map Char.toUpper)

/-- `re.sub(r"\D", "", s)`: keep only the digits of a string. -/
def digitsOf (s : String) : String := String.mk (s.toList.filter isAsciiDigit)

/-- Python substring containment `needle in hay`. -/
def pyContains (hay needle : String) : Bool :=
  hay.toList.tails.any (fun t => needle.toList.isPrefixOf t)

/-- Python `s.startswith(pre)`. -/
def pyStartsWith (s pre : String) : Bool := pre.toList.isPrefixOf s.toList

/-- The proposition that `needle` occurs contiguously inside `hay`. -/
def SubstrOccurs (needle hay : String) : Prop :=
  ∃ s t, hay.toList = s ++ needle.toList ++ t

/-- Python `str.split()` (split on whitespace runs, dropping empty words). -/
def pyWordsAux : List Char → List Char → List (List Char)
  | [], [] => []
  | [], acc => [acc.reverse]
  | c :: cs, acc =>
    if pyWs c then
      (if acc.isEmpty then pyWordsAux cs [] else acc.reverse :: pyWordsAux cs [])
    else pyWordsAux cs (c :: acc)

/-- Python `" ".join(text.split())`: collapse all whitespace runs to single
spaces and trim the ends. -/
def pyJoinWords (s : String) : String :=
  String.mk (List.intercalate [' '] (pyWordsAux s.toList []))

/-- Python `text.replace(" ", " ")`. -/
def replaceNbsp (s : String) : String :=
  String.mk (s.toList.map (fun c => if c = ' ' then ' ' else c))

/-- Python `s.replace(pat, rep)` (left-to-right, non-overlapping), on lists. -/
def replaceAllAux (pat rep : List Char) : Nat → List Char → List Char
  | 0, cs => cs
  | _, [] => []
  | fuel + 1, c :: cs =>
    if !pat.isEmpty && pat.isPrefixOf (c :: cs) then
      rep ++ replaceAllAux pat rep fuel ((c :: cs).drop pat.length)
    else
      c :: replaceAllAux pat rep fuel cs

/-- Python `s.replace(pat, rep)`. -/
def pyReplace (s pat rep : String) : String :=
  String.mk (replaceAllAux pat.toList rep.toList s.toList.length s.toList)

/-! ## A small backtracking regex matcher

The scrapers use a handful of fixed `re` patterns.  They are embedded as
values of the type `RE` below and run by `mrun`, a defunctionalised
backtracking matcher: the continuation is the list of items still to match.
Alternation tries the left branch first, greedy repetition tries one more
iteration before stopping, lazy repetition tries to stop first — the
priorities of Python's `re`.  Group captures record the consumed span; a
later capture of the same group shadows an earlier one, as in Python. -/

inductive RE where
  | eps : RE
  | cls : (Char → Bool) → RE
  | seq : RE → RE → RE
  | alt : RE → RE → RE
  | starG : RE → RE
  | starL : RE → RE
  | grp : Nat → RE → RE
  | look : RE → RE
  | lineEnd : RE
  | nextNotWord : RE

/-- Items of the defunctionalised continuation. -/
inductive RItem where
  | re : RE → RItem
  | closeGrp : Nat → List Char → RItem
  | chkLt : Nat → RItem

/-- Recorded group captures: group index paired with the captured span. -/
abbrev Caps := List (Nat × List Char)

/-- The backtracking matcher.  `mrun fuel items cs caps` matches the sequence
of `items` against a prefix of `cs`; on success it returns the remaining
input and the captures.  `fuel` bounds the number of steps. -/
def mrun : Nat → List RItem → List Char → Caps → Option (List Char × Caps)
  | 0, _, _, _ => none
  | _ + 1, [], cs, caps => some (cs, caps)
  | fuel + 1, item :: rest, cs, caps =>
    match item with
    | .chkLt n => if cs.length < n then mrun fuel rest cs caps else none
    | .closeGrp i start =>
      mrun fuel rest cs ((i, start.take (start.length - cs.length)) :: caps)
    | .re r =>
      match r with
      | .eps => mrun fuel rest cs caps
      | .cls p =>
        match cs with
        | [] => none
        | c :: cs2 => if p c then mrun fuel rest cs2 caps else none
      | .seq a b => mrun fuel (.re a :: .re b :: rest) cs caps
      | .alt a b =>
        match mrun fuel (.re a :: rest) cs caps with
        | some res => some res
        | none => mrun fuel (.re b :: rest) cs caps
      | .starG a =>
        match mrun fuel (.re a :: .chkLt cs.length :: .re (.starG a) :: rest) cs caps with
        | some res => some res
        | none => mrun fuel rest cs caps
      | .starL a =>
        match mrun fuel rest cs caps with
        | some res => some res
        | none => mrun fuel (.re a :: .chkLt cs.length :: .re (.starL a) :: rest) cs caps
      | .grp i a => mrun fuel (.re a :: .closeGrp i cs :: rest) cs caps
      | .look a =>
        match mrun fuel [.re a] cs [] with
        | some _ => mrun fuel rest cs caps
        | none => none
      | .lineEnd =>
        if cs.isEmpty || cs = ['\n'] then mrun fuel rest cs caps else none
      | .nextNotWord =>
        match cs with
        | [] => mrun fuel rest cs caps
        | c :: _ => if isWordChar c then none else mrun fuel rest cs caps

/-- Fuel used for one anchored match attempt. -/
def reFuel (cs : List Char) : Nat := 2000 * (cs.length + 2)

/-- One anchored match attempt at the current position. -/
def tryAt (r : RE) (cs : List Char) : Option (List Char × Caps) :=
  mrun (reFuel cs) [.re r] cs []

/-- `re.search` semantics: the leftmost position where the pattern matches.
Returns the matched text, the rest of the input, and the captures. -/
def searchFrom (r : RE) : List Char → Option (List Char × List Char × Caps)
  | [] =>
    match tryAt r [] with
    | some (rest, caps) => some ([], rest, caps)
    | none => none
  | c :: cs2 =>
    match tryAt r (c :: cs2) with
    | some (rest, caps) =>
      some ((c :: cs2).take ((c :: cs2).length - rest.length), rest, caps)
    | none => searchFrom r cs2

/-- `re.search` on a string: matched text and captures of the first match. -/
def reSearch (r : RE) (s : String) : Option (List Char × Caps) :=
  match searchFrom r s.toList with
  | some (m, _, caps) => some (m, caps)
  | none => none

/-- `re.finditer` semantics: successive non-overlapping leftmost matches. -/
def findAllAux (r : RE) : Nat → List Char → List (List Char × Caps)
  | 0, _ => []
  | n + 1, cs =>
    match searchFrom r cs with
    | none => []
    | some (m, rest, caps) =>
      if rest.length < cs.length then (m, caps) :: findAllAux r n rest
      else [(m, caps)]

/-- `re.finditer` on a string. -/
def findAll (r : RE) (s : String) : List (List Char × Caps) :=
  findAllAux r (s.length + 1) s.toList

/-- `match.group(i)`; an unrecorded group reads as the empty string. -/
def capStr (caps : Caps) (i : Nat) : String :=
  match caps.find? (fun p => p.1 = i) with
  | some p => String.mk p.2
  | none => ""

/-- Literal single character. -/
def reLit (c : Char) : RE := .cls (fun x => x = c)

/-- Literal string. -/
def reStr (s : String) : RE :=
  s.toList.foldr (fun c acc => RE.seq (reLit c) acc) RE.eps

/-- Greedy `+`. -/
def rePlusG (r : RE) : RE := .seq r (.starG r)

/-- Lazy `+?`. -/
def rePlusL (r : RE) : RE := .seq r (.starL r)

/-- Greedy `?`. -/
def reOpt (r : RE) : RE := .alt r .eps

/-- Exactly `n` repetitions. -/
def reN : Nat → RE → RE
  | 0, _ => .eps
  | n + 1, r => .seq r (reN n r)

/-- Sequence of a list of patterns. -/
def reSeqs (l : List RE) : RE := l.foldr .seq .eps

/-! ## The regex patterns of the scrapers -/

/-- The class `[A-Za-z\s\.\-']` used for city captures. -/
def cityClassChar (c : Char) : Bool :=
  isAsciiAlpha c || pyWs c || c = '.' || c = '-' || c = '\''

/-- The class `[\s.\-]` used as a phone separator. -/
def phoneSepChar (c : Char) : Bool := pyWs c || c = '.' || c = '-'

/-- The class `[a-zA-Z0-9._%+\-]` of the email local part. -/
def emailLocalChar (c : Char) : Bool :=
  isAsciiAlpha c || isAsciiDigit c || c = '.' || c = '_' || c = '%' || c = '+' || c = '-'

/-- The class `[a-zA-Z0-9.\-]` of the email domain part. -/
def emailDomChar (c : Char) : Bool :=
  isAsciiAlpha c || isAsciiDigit c || c = '.' || c = '-'

/-- `[A-Za-z]` as a pattern. -/
def alphaC : RE := .cls isAsciiAlpha

/-- `\d` as a pattern. -/
def digitC : RE := .cls isAsciiDigit

/-- `\s` as a pattern. -/
def wsC : RE := .cls pyWs

/-- `[A-Za-z\s\.\-']` as a pattern. -/
def cityC : RE := .cls cityClassChar

/-- `[A-Za-z]+(?:\s+[A-Za-z]+)*`, the word(s) captured as a state name. -/
def stateWordRe : RE :=
  .seq (rePlusG alphaC) (.starG (.seq (rePlusG wsC) (rePlusG alphaC)))

/-- `\d{5}(?:-\d{4})?`, a ZIP code. -/
def zipRe : RE := .seq (reN 5 digitC) (reOpt (.seq (reLit '-') (reN 4 digitC)))

/-- `_RE_CITY_STATE_BEFORE_ZIP` of `bizquest_scraper.py` (also used, with the
same text, in `ibba_scraper.py`):
`([A-Za-z][A-Za-z\s\.\-']+?),\s*([A-Za-z]+(?:\s+[A-Za-z]+)*)\s+\d{5}(?:-\d{4})?`
(the `re.I` flag is irrelevant: every letter class already covers both cases). -/
def reCityStateBeforeZip : RE :=
  reSeqs [.grp 1 (.seq alphaC (rePlusL cityC)), reLit ',', .starG wsC,
          .grp 2 stateWordRe, rePlusG wsC, zipRe]

/-- `_RE_CITY_ST` of `bizquest_scraper.py`:
`([A-Za-z][A-Za-z\s\.\-']+),\s*([A-Za-z]{2})(?:\s+\d{5}(?:-\d{4})?|\s+United States|\s|$)`. -/
def reCityST : RE :=
  reSeqs [.grp 1 (.seq alphaC (rePlusG cityC)), reLit ',', .starG wsC,
          .grp 2 (.seq alphaC alphaC),
          .alt (.seq (rePlusG wsC) zipRe)
            (.alt (.seq (rePlusG wsC) (reStr "United States")) (.alt wsC .lineEnd))]

/-- `_RE_CITY_FULL_STATE` of `bizquest_scraper.py`:
`([A-Za-z][A-Za-z\s\.\-']+?),?\s*,\s*([A-Za-z]+(?:\s+[A-Za-z]+)*)\s*(?=\d{5}(?:-\d{4})?|$|,)`. -/
def reCityFullState : RE :=
  reSeqs [.grp 1 (.seq alphaC (rePlusL cityC)), reOpt (reLit ','), .starG wsC,
          reLit ',', .starG wsC, .grp 2 stateWordRe, .starG wsC,
          .look (.alt zipRe (.alt .lineEnd (reLit ',')))]

/-- The inline fallback pattern of `_extract_location_from_profile`
(`bizquest_scraper.py`, line 170):
`([A-Za-z][A-Za-z\s\.\-']+),\s*([A-Za-z]{2})\b`.  Since `\b` here follows a
letter, it is equivalent to the assertion that the next character is absent
or not a word character. -/
def reCityFallback : RE :=
  reSeqs [.grp 1 (.seq alphaC (rePlusG cityC)), reLit ',', .starG wsC,
          .grp 2 (.seq alphaC alphaC), .nextNotWord]

/-- Phone pattern 1 of `_PHONE_PATTERNS` in `crexi_scraper.py`:
`\(?\d{3}\)?[\s.\-]?\d{3}[\s.\-]?\d{4}`. -/
def rePhone1 : RE :=
  reSeqs [reOpt (reLit '('), reN 3 digitC, reOpt (reLit ')'),
          reOpt (.cls phoneSepChar), reN 3 digitC, reOpt (.cls phoneSepChar),
          reN 4 digitC]

/-- Phone pattern 2 of `_PHONE_PATTERNS`: `\d{3}[\s.\-]\d{3}[\s.\-]\d{4}`. -/
def rePhone2 : RE :=
  reSeqs [reN 3 digitC, .cls phoneSepChar, reN 3 digitC, .cls phoneSepChar,
          reN 4 digitC]

/-- Phone pattern 3 of `_PHONE_PATTERNS`: `\d{10}`. -/
def rePhone3 : RE := reN 10 digitC

/-- `_EMAIL_PATTERN` of `crexi_scraper.py`:
`[a-zA-Z0-9._%+\-]+@[a-zA-Z0-9.\-]+\.[a-zA-Z]{2,}`. -/
def reEmail : RE :=
  reSeqs [rePlusG (.cls emailLocalChar), reLit '@', rePlusG (.cls emailDomChar),
          reLit '.', alphaC, rePlusG alphaC]

/-! ## Deterministic anchored checks

`_CITY_STATE_ONLY` / `_LOCATION_CITY_STATE` (`^[^,]+,\s*[A-Za-z]{2}$`) and the
numeric-city check (`^\d+$`) are applied with `re.match`, anchored at the
start and ending in `$`.  Both are deterministic: `[^,]+` cannot cross a comma
and is followed by a literal comma, so it always ends exactly at the first
comma; `\s*` is followed by letters, so it always consumes the maximal
whitespace run.  They are therefore embedded directly.  `$` matches at the
end of the string or just before a single trailing newline. -/

/-- Remove one trailing newline, the positions accepted by `$`. -/
def dropFinalNl (cs : List Char) : List Char :=
  if cs.getLast? = some '\n' then cs.dropLast else cs

/-- `re.match(r"^[^,]+,\s*[A-Za-z]{2}$", s)` as a Boolean: the shared
`_CITY_STATE_ONLY` / `_LOCATION_CITY_STATE` validation. -/
def matchCityStateOnly (s : String) : Bool :=
  let cs := dropFinalNl s.toList
  let pre := cs.takeWhile (fun c => c ≠ ',')
  let rest := cs.dropWhile (fun c => c ≠ ',')
  !pre.isEmpty && !rest.isEmpty &&
    (let t := rest.tail.dropWhile pyWs
     t.length = 2 && t.all isAsciiAlpha)

/-- `re.match(r"^\d+$", s)` as a Boolean: the numeric-city rejection. -/
def isNumericOnly (s : String) : Bool :=
  let cs := dropFinalNl s.toList
  !cs.isEmpty && cs.all isAsciiDigit

/-! ## The state table and the location parser -/

/-- `_STATE_ABBREV` / `_US_STATE_ABBREV`: the hardcoded 50-state+DC
name-to-abbreviation table, identical in all four scraper files. -/
def STATE_ABBREV : List (String × String) :=
  [("alabama", "AL"), ("alaska", "AK"), ("arizona", "AZ"), ("arkansas", "AR"),
   ("california", "CA"), ("colorado", "CO"), ("connecticut", "CT"),
   ("delaware", "DE"), ("florida", "FL"), ("georgia", "GA"), ("hawaii", "HI"),
   ("idaho", "ID"), ("illinois", "IL"), ("indiana", "IN"), ("iowa", "IA"),
   ("kansas", "KS"), ("kentucky", "KY"), ("louisiana", "LA"), ("maine", "ME"),
   ("maryland", "MD"), ("massachusetts", "MA"), ("michigan", "MI"),
   ("minnesota", "MN"), ("mississippi", "MS"), ("missouri", "MO"),
   ("montana", "MT"), ("nebraska", "NE"), ("nevada", "NV"),
   ("new hampshire", "NH"), ("new jersey", "NJ"), ("new mexico", "NM"),
   ("new york", "NY"), ("north carolina", "NC"), ("north dakota", "ND"),
   ("ohio", "OH"), ("oklahoma", "OK"), ("oregon", "OR"), ("pennsylvania", "PA"),
   ("rhode island", "RI"), ("south carolina", "SC"), ("south dakota", "SD"),
   ("tennessee", "TN"), ("texas", "TX"), ("utah", "UT"), ("vermont", "VT"),
   ("virginia", "VA"), ("washington", "WA"), ("west virginia", "WV"),
   ("wisconsin", "WI"), ("wyoming", "WY"), ("district of columbia", "DC")]

/-- Dictionary lookup `_STATE_ABBREV.get(key)`. -/
def stateLookup (key : String) : Option String :=
  (STATE_ABBREV.find? (fun p => p.1 = key)).map (fun p => p.2)

/-- The abbreviations that occur in the state table. -/
def stateAbbrevVals : List String := STATE_ABBREV.map (fun p => p.2)

/-- `_normalize_state` of `businessbroker_scraper.py` (lines 80-84, same
function in `crexi_scraper.py` and `ibba_scraper.py`): a 2-letter alphabetic
string is uppercased and accepted as-is, anything else goes through the
table. -/
def normalize_state (stateRaw : String) : Option String :=
  let s := pyStrip stateRaw
  if s.length = 2 && s.toList.all isAsciiAlpha then some (pyUpper s)
  else stateLookup (pyLower s)

/-- The per-match validation of branches 1 and 3 of `parse_city_state`
(`bizquest_scraper.py` lines 140-149 and 160-169): reject empty, overlong or
numeric-only cities; look the lowercased state up in the table; accept
`City, AB` only when it passes `_CITY_STATE_ONLY`. -/
def bqValidateTable (city stateRaw : String) : Option String :=
  if city = "" || city.length > 50 || isNumericOnly city then none
  else
    match stateLookup (pyLower stateRaw) with
    | none => none
    | some ab =>
      if matchCityStateOnly (city ++ ", " ++ ab) then some (city ++ ", " ++ ab)
      else none

/-- The per-match validation of branches 2 and 4 of `parse_city_state`
(lines 152-158 and 171-175, whose guards are each other's De Morgan duals):
require a two-letter state, reject empty, overlong or numeric-only cities,
accept `City, ST` as captured — no table validation, no uppercasing. -/
def bqValidateTwoLetter (city state : String) : Option String :=
  if state.length ≠ 2 || city = "" || city.length > 50 || isNumericOnly city then none
  else if matchCityStateOnly (city ++ ", " ++ state) then some (city ++ ", " ++ state)
  else none

/-- Branch 1 of `parse_city_state` (lines 139-149): first validated match of
`_RE_CITY_STATE_BEFORE_ZIP`. -/
def bqBranchZip (t : String) : Option String :=
  (findAll reCityStateBeforeZip t).findSome? (fun mc =>
    bqValidateTable (pyStrip (capStr mc.2 1)) (pyStrip (capStr mc.2 2)))

/-- Branch 2 of `parse_city_state` (lines 151-158): first validated match of
`_RE_CITY_ST`. -/
def bqBranchCityST (t : String) : Option String :=
  (findAll reCityST t).findSome? (fun mc =>
    bqValidateTwoLetter (pyStrip (capStr mc.2 1)) (pyStrip (capStr mc.2 2)))

/-- Branch 3 of `parse_city_state` (lines 159-169): first validated match of
`_RE_CITY_FULL_STATE`. -/
def bqBranchFull (t : String) : Option String :=
  (findAll reCityFullState t).findSome? (fun mc =>
    bqValidateTable (pyStrip (capStr mc.2 1)) (pyStrip (capStr mc.2 2)))

/-- Branch 4 of `parse_city_state` (lines 170-175): first validated match of
the inline fallback pattern. -/
def bqBranchFallback (t : String) : Option String :=
  (findAll reCityFallback t).findSome? (fun mc =>
    bqValidateTwoLetter (pyStrip (capStr mc.2 1)) (pyStrip (capStr mc.2 2)))

/-- `parse_city_state` of `bizquest_scraper.py` (lines 133-176): reject empty
or overlong input, normalise the whitespace, then try the four branches in
order and return `"N/A"` when none produces a validated result. -/
def parse_city_state (text : String) : String :=
  if text = "" || text.length > 2000 then "N/A"
  else
    match bqBranchZip (pyJoinWords (replaceNbsp text)) with
    | some out => out
    | none =>
      match bqBranchCityST (pyJoinWords (replaceNbsp text)) with
      | some out => out
      | none =>
        match bqBranchFull (pyJoinWords (replaceNbsp text)) with
        | some out => out
        | none =>
          match bqBranchFallback (pyJoinWords (replaceNbsp text)) with
          | some out => out
          | none => "N/A"

/-! ## `ecw_scraper_data.py`: records, export dataframe, dedup, CSV -/

/-- The `BrokerContact` dataclass. -/
structure BrokerContact where
  full_name : String := ""
  phone_number : String := ""
  location : String := ""
  company : String := ""
  email : String := ""
  source_url : String := ""
  notes : String := ""
deriving DecidableEq, Repr

/-- `CSV_COLUMNS`. -/
def CSV_COLUMNS : List String :=
  ["Full Name", "Phone Number", "Location (City, State)", "Company",
   "Email Address", "URL", "Notes (URL Link)"]

/-- One row of the export dataframe, one field per entry of `CSV_COLUMNS`. -/
structure CsvRow where
  fullName : String
  phone : String
  location : String
  company : String
  email : String
  url : String
  notes : String
deriving DecidableEq, Repr

/-- The fields of a row in `CSV_COLUMNS` order. -/
def rowFields (r : CsvRow) : List String :=
  [r.fullName, r.phone, r.location, r.company, r.email, r.url, r.notes]

/-- `_na_or` of `contacts_to_dataframe`: strip, and substitute `"N/A"` for the
empty result (a `None` field reads as the empty string here, which lands in
the same branch). -/
def naOr (value : String) : String :=
  let text := pyStrip value
  if text = "" then "N/A" else text

/-- `_location_city_state_only` of `contacts_to_dataframe` (lines 41-45):
keep the location only when it is short enough and matches
`_LOCATION_CITY_STATE`, the same text as `_CITY_STATE_ONLY`. -/
def location_city_state_only (loc : String) : String :=
  if naOr loc = "N/A" || (naOr loc).length > 80 then "N/A"
  else if matchCityStateOnly (naOr loc) then naOr loc else "N/A"

/-- The row built for one contact by `contacts_to_dataframe` (lines 47-59). -/
def contactToRow (c : BrokerContact) : CsvRow where
  fullName := naOr c.full_name
  phone := naOr c.phone_number
  location := location_city_state_only c.location
  company := naOr c.company
  email := naOr c.email
  url := naOr c.source_url
  notes := naOr c.notes

/-- `contacts_to_dataframe` (lines 34-62). -/
def contacts_to_dataframe (contacts : List BrokerContact) : List CsvRow :=
  contacts.map contactToRow

/-- The per-column `astype(str).str.strip()` pass of `clean_contacts_dataframe`
(lines 70-71). -/
def stripRow (r : CsvRow) : CsvRow where
  fullName := pyStrip r.fullName
  phone := pyStrip r.phone
  location := pyStrip r.location
  company := pyStrip r.company
  email := pyStrip r.email
  url := pyStrip r.url
  notes := pyStrip r.notes

/-- The `_dedup_key` column of `clean_contacts_dataframe` (lines 73-88),
computed on the stripped row: `_key_no_phone` exactly when the phone cell
strips to the empty string, `_key_with_phone` otherwise. -/
def dedupKeyOf (r : CsvRow) : String :=
  if pyStrip r.phone = "" then
    pyLower r.fullName ++ "|" ++ pyLower r.company
  else
    pyLower r.fullName ++ "|" ++ digitsOf r.phone ++ "|" ++ pyLower r.company

/-- `drop_duplicates(subset="_dedup_key")`: keep the first row of each key,
preserving order. -/
def dropDupByKey : List String → List CsvRow → List CsvRow
  | _, [] => []
  | seen, r :: rs =>
    if seen.contains (dedupKeyOf r) then dropDupByKey seen rs
    else r :: dropDupByKey (dedupKeyOf r :: seen) rs

/-- `clean_contacts_dataframe` (lines 65-93). -/
def clean_contacts_dataframe (rows : List CsvRow) : List CsvRow :=
  if rows.isEmpty then rows else dropDupByKey [] (rows.map stripRow)

/-- The export path shared by every scraper: `contacts_to_dataframe`
followed by `clean_contacts_dataframe`. -/
def exportPipeline (contacts : List BrokerContact) : List CsvRow :=
  clean_contacts_dataframe (contacts_to_dataframe contacts)

/-! ## CSV write and read back

Modelled from the spec: `save_to_csv` delegates to `pandas.DataFrame.to_csv`
(default minimal quoting: a field is quoted exactly when it contains a
delimiter, a quote or a line break, quotes doubled inside quoted fields),
and the spec's round-trip reads the file back with a standard CSV reader;
neither side's code lives in this repository, so both are modelled by their
documented CSV semantics. -/

/-- A field needs quoting when it contains a comma, a quote or a line break. -/
def csvNeedsQuote (s : String) : Bool :=
  s.toList.any (fun c => c = ',' || c = '"' || c = '\n' || c = '\r')

/-- Double a quote character, keep any other character. -/
def csvQQ (c : Char) : List Char := if c = '"' then ['"', '"'] else [c]

/-- Serialise one field with minimal quoting. -/
def csvEscField (s : String) : List Char :=
  if csvNeedsQuote s then '"' :: (s.toList.flatMap csvQQ) ++ ['"']
  else s.toList

/-- Serialise one record: fields joined by commas. -/
def csvLine : List String → List Char
  | [] => []
  | [f] => csvEscField f
  | f :: g :: rest => csvEscField f ++ ',' :: csvLine (g :: rest)

/-- `save_to_csv(df, path)` with `index=False`: the header line followed by
one line per row, each terminated by a newline. -/
def save_to_csv (rows : List CsvRow) : List Char :=
  (CSV_COLUMNS :: rows.map rowFields).flatMap (fun fs => csvLine fs ++ ['\n'])

/-- Mode of the CSV reading automaton: inside an unquoted field, inside a
quoted field, or just after a closing quote. -/
inductive CsvMode where
  | unq : CsvMode
  | inq : CsvMode
  | postq : CsvMode
deriving DecidableEq, Repr

/-- State of the CSV reading automaton. -/
structure CsvSt where
  mode : CsvMode
  cur : List Char
  fields : List String
  rows : List (List String)
deriving Repr

/-- One step of the CSV reading automaton. -/
def csvStep (st : CsvSt) (c : Char) : CsvSt :=
  match st.mode with
  | .unq =>
    if c = ',' then { st with cur := [], fields := st.fields ++ [String.mk st.cur] }
    else if c = '\n' then
      { st with cur := [], fields := [],
                rows := st.rows ++ [st.fields ++ [String.mk st.cur]] }
    else if c = '"' && st.cur.isEmpty then { st with mode := .inq }
    else { st with cur := st.cur ++ [c] }
  | .inq =>
    if c = '"' then { st with mode := .postq }
    else { st with cur := st.cur ++ [c] }
  | .postq =>
    if c = '"' then { st with mode := .inq, cur := st.cur ++ ['"'] }
    else if c = ',' then
      { st with mode := .unq, cur := [], fields := st.fields ++ [String.mk st.cur] }
    else if c = '\n' then
      { st with mode := .unq, cur := [], fields := [],
                rows := st.rows ++ [st.fields ++ [String.mk st.cur]] }
    else { st with mode := .unq, cur := st.cur ++ [c] }

/-- Read a CSV file back into its records. -/
def parseCsv (cs : List Char) : List (List String) :=
  let st := cs.foldl csvStep ⟨.unq, [], [], []⟩
  if st.mode = .unq && st.cur.isEmpty && st.fields.isEmpty then st.rows
  else st.rows ++ [st.fields ++ [String.mk st.cur]]

/-! ## Keyword matchers -/

/-- `ECW_KEYWORDS` of `bizquest_scraper.py` and `businessbroker_scraper.py`
(identical lists). -/
def ECW_KEYWORDS : List String :=
  ["express car wash", "express wash", "tunnel wash", "car wash", "carwash",
   "conveyor wash"]

/-- `KEYWORDS` of `crexi_scraper.py`. -/
def KEYWORDS : List String :=
  ["express car wash", "express wash", "tunnel wash", "car wash", "carwash",
   "conveyor wash", "owner-user sale", "owner-user", "pad site",
   "retail pad site", "underperforming asset", "automotive real estate",
   "stand-alone building", "stand-alone retail", "service station",
   "gas station", "oil change", "lube center", "tire shop", "sale leaseback",
   "slb"]

/-- `_profile_contains_ecw_keywords` of `bizquest_scraper.py` (lines 122-129)
and `businessbroker_scraper.py` (lines 135-142), over the text it reads from
the page body: lowercase the text, keep the keywords contained in it in
declaration order, and report whether any matched. -/
def profile_contains_ecw_keywords (body : String) : Bool × List String :=
  let lower := pyLower body
  let found := ECW_KEYWORDS.filter (fun kw => pyContains lower kw)
  (!found.isEmpty, found)

/-- An admissible embedding of `list(set(xs))`: Python's `set` guarantees the
membership and the absence of duplicates of its enumeration but no order
(string hashing is even randomised per process), so the enumeration is a
parameter constrained only by those two guarantees. -/
def ValidSetEnum (enum : List String → List String) : Prop :=
  ∀ xs, (enum xs).Nodup ∧ ∀ a, a ∈ enum xs ↔ a ∈ xs

/-- One admissible `list(set(xs))` enumeration: drop duplicates, then reverse. -/
def revSetEnum (xs : List String) : List String := xs.dedup.reverse

/-- `_profile_contains_keywords` of `crexi_scraper.py` (lines 403-424)
restricted to a page whose only text is the body (no listing cards, no
"active listings"/"sold listings" sections), so that
`bio_keywords = [kw for kw in KEYWORDS if kw.lower() in lower]`,
`listing_keywords = []` and the result list is
`list(set(bio_keywords + listing_keywords))`, embodied by the `enum`
parameter. -/
def crexi_profile_text_keywords (enum : List String → List String)
    (body : String) : Bool × List String :=
  let lower := pyLower body
  let bio := KEYWORDS.filter (fun kw => pyContains lower (pyLower kw))
  let allKw := enum (bio ++ [])
  (!allKw.isEmpty, allKw)

/-! ## Field extraction helpers -/

/-- `_safe_text` (identical in `bizquest_scraper.py` lines 71-78,
`businessbroker_scraper.py`, `crexi_scraper.py`, `ibba_scraper.py`): the
input is the text the locator produced, `none` standing for a missing
element, a zero count or a raised exception, all of which return the
default `"N/A"`; otherwise the stripped text, or the default when that is
empty. -/
def safe_text (t : Option String) : String :=
  match t with
  | none => "N/A"
  | some s =>
    let text := pyStrip s
    if text = "" then "N/A" else text

/-! ## `crexi_scraper.py` phone and email extraction -/

/-- `_BLOCKED_PHONE_DIGITS`. -/
def BLOCKED_PHONE_DIGITS : List String := ["8882730423"]

/-- `_BLOCKED_EMAILS`. -/
def BLOCKED_EMAILS : List String := ["support@crexi.com"]

/-- Strip the leading `1` of an 11-digit number (lines 435-436). -/
def dropLeadingOne (digits : String) : String :=
  if digits.length = 11 && pyStartsWith digits "1" then String.mk (digits.toList.drop 1)
  else digits

/-- The body of one iteration of `_extract_phone_from_text` (lines 430-438):
search one pattern; when it matches, accept the match only if its normalised
digits have exactly length 10 and are not blocked.  A match that fails the
checks makes the iteration fall through to the next pattern, exactly like a
pattern with no match. -/
def crexiTryPhonePattern (text : String) (p : RE) : Option String :=
  match reSearch p text with
  | none => none
  | some m =>
    if (dropLeadingOne (digitsOf (pyStrip (String.mk m.1)))).length = 10 &&
        !BLOCKED_PHONE_DIGITS.contains (dropLeadingOne (digitsOf (pyStrip (String.mk m.1)))) then
      some (pyStrip (String.mk m.1))
    else none

/-- `_extract_phone_from_text` of `crexi_scraper.py` (lines 427-439). -/
def extract_phone_from_text (text : String) : String :=
  if text = "" then "N/A"
  else
    match [rePhone1, rePhone2, rePhone3].findSome? (crexiTryPhonePattern text) with
    | some phone => phone
    | none => "N/A"

/-- `_extract_email_from_text` of `crexi_scraper.py` (lines 442-450): search
the email pattern; return the stripped match (original case) unless its
lowercase form is blocked. -/
def extract_email_from_text (text : String) : String :=
  if text = "" then "N/A"
  else
    match reSearch reEmail text with
    | none => "N/A"
    | some m =>
      if BLOCKED_EMAILS.contains (pyLower (pyStrip (String.mk m.1))) then "N/A"
      else pyStrip (String.mk m.1)

/-! ## `ibba_scraper.py` phone extraction -/

/-- `_IBBA_HEADER_DIGITS`. -/
def IBBA_HEADER_DIGITS : String := "8886864222"

/-- `_normalize_phone_digits` (lines 234-235). -/
def normalize_phone_digits (s : String) : String :=
  if s = "" then "" else digitsOf s

/-- `_is_ibba_header` (lines 238-242). -/
def is_ibba_header (digits : String) : Bool :=
  if digits = "" || digits.length < 10 then false
  else dropLeadingOne digits = IBBA_HEADER_DIGITS

/-- One `a[href^='tel:']` anchor of an IBBA profile page: its `href`
attribute (`none` for a missing attribute) and its displayed inner text. -/
structure TelEntry where
  href : Option String
  text : String
deriving DecidableEq, Repr

/-- `href.replace("tel:", "").strip().split("?")[0].strip()` (line 254). -/
def hrefNumRaw (h : String) : String :=
  pyStrip (String.mk ((pyStrip (pyReplace h "tel:" "")).toList.takeWhile (fun c => c ≠ '?')))

/-- `re.search(r"\d", s)` as a Boolean. -/
def hasDigit (s : String) : Bool := s.toList.any isAsciiDigit

/-- `re.search(r"\d{3}", s)` as a Boolean: three consecutive digits. -/
def hasThreeDigits (s : String) : Bool :=
  s.toList.tails.any (fun t =>
    match t with
    | c1 :: c2 :: c3 :: _ => isAsciiDigit c1 && isAsciiDigit c2 && isAsciiDigit c3
    | _ => false)

/-- First pass of `_extract_phone_from_profile` (lines 248-260): walk the
`tel:` anchors; skip an anchor whose href digits are the IBBA header number;
on the first anchor with at least 10 href digits return its displayed text
when that text is non-empty and contains a digit, the href number otherwise. -/
def ibbaPhonePass1 : List TelEntry → Option String
  | [] => none
  | ⟨none, _⟩ :: rest => ibbaPhonePass1 rest
  | ⟨some h, txt⟩ :: rest =>
    if h = "" || !pyStartsWith h "tel:" then ibbaPhonePass1 rest
    else if is_ibba_header (normalize_phone_digits (hrefNumRaw h)) then
      ibbaPhonePass1 rest
    else if 10 ≤ (normalize_phone_digits (hrefNumRaw h)).length then
      some (if pyStrip txt ≠ "" && hasDigit (pyStrip txt) then pyStrip txt
            else hrefNumRaw h)
    else ibbaPhonePass1 rest

/-- Second pass of `_extract_phone_from_profile` (lines 261-270): walk the
anchors again by displayed text; skip texts without three consecutive digits,
texts whose digits are the header number, and texts with fewer than 10
digits. -/
def ibbaPhonePass2 : List TelEntry → Option String
  | [] => none
  | e :: rest =>
    if pyStrip e.text = "" || !hasThreeDigits (pyStrip e.text) then ibbaPhonePass2 rest
    else if is_ibba_header (normalize_phone_digits (pyStrip e.text)) then
      ibbaPhonePass2 rest
    else if 10 ≤ (normalize_phone_digits (pyStrip e.text)).length then some (pyStrip e.text)
    else ibbaPhonePass2 rest

/-- `_extract_phone_from_profile` of `ibba_scraper.py` (lines 245-273) over
the page's `tel:` anchors. -/
def ibba_extract_phone_from_profile (entries : List TelEntry) : String :=
  match ibbaPhonePass1 entries with
  | some r => r
  | none =>
    match ibbaPhonePass2 entries with
    | some r => r
    | none => "N/A"

/-! ## Directory pagination loops -/

/-- The outcome of fetching one directory page in
`_get_all_profile_urls_from_directory` of `bizquest_scraper.py`: either the
profile URLs found on the page, or a raised exception. -/
abbrev PageFetch := Except Unit (List String)

/-- Order-preserving union, standing in for `all_urls |= page_urls`: the set
only ever grows, and `added == 0` exactly when the length is unchanged. -/
def unionUrls (acc urls : List String) : List String :=
  acc ++ urls.filter (fun u => !acc.contains u)

/-- The page loop of `_get_all_profile_urls_from_directory`
(`bizquest_scraper.py` lines 339-355): visit pages in order; a page that
raises breaks the loop (lines 353-355); a page that adds zero new links
breaks the loop (lines 351-352); otherwise continue. -/
def bizquestPageLoop : List PageFetch → List String → List String
  | [], acc => acc
  | .error _ :: _, acc => acc
  | .ok urls :: rest, acc =>
    let acc2 := unionUrls acc urls
    if acc2.length = acc.length then acc2 else bizquestPageLoop rest acc2

/-- `_get_all_profile_urls_from_directory` (lines 336-356): at most
`max_pages = 60` pages, starting from the empty set. -/
def get_all_profile_urls_from_directory (pages : List PageFetch) : List String :=
  bizquestPageLoop (pages.take 60) []

/-- The state of one iteration of the `while` loop of
`_collect_all_profile_urls` of `crexi_scraper.py`: the profile links the page
yields, whether a Next control is found, and whether clicking it succeeds
(an exception inside the iteration counts as a failed click: both paths
increment `consecutive_failures`). -/
structure CrexiStep where
  links : List String
  hasNext : Bool
  clickOk : Bool
deriving Repr

/-- The `while` loop of `_collect_all_profile_urls` (lines 874-933), one
`CrexiStep` per iteration; an exhausted script ends the loop.  Collection
happens only from `start_page` on; empty `links` do not stop the loop (the
code explicitly continues); a missing or unclickable Next control increments
`consecutive_failures` and stops the loop at `max_failures = 2`; a successful
click advances the page and resets the failure count. -/
def crexiCollectLoop (startP endP : Nat) :
    List CrexiStep → Nat → Nat → List String → List String
  | [], _, _, acc => acc
  | step :: rest, pageNum, fails, acc =>
    let acc2 := if startP ≤ pageNum then unionUrls acc step.links else acc
    let fails2 := if startP ≤ pageNum && !step.links.isEmpty then 0 else fails
    if endP ≤ pageNum then acc2
    else if !step.hasNext then
      if 2 ≤ fails2 + 1 then acc2
      else crexiCollectLoop startP endP rest pageNum (fails2 + 1) acc2
    else if !step.clickOk then
      if 2 ≤ fails2 + 1 then acc2
      else crexiCollectLoop startP endP rest pageNum (fails2 + 1) acc2
    else crexiCollectLoop startP endP rest (pageNum + 1) 0 acc2

/-- `_collect_all_profile_urls` (lines 865-935): start on page 1 with no
failures and an empty collection; `end_page = start_page + max_pages - 1`. -/
def collect_all_profile_urls (startP maxPages : Nat) (script : List CrexiStep) :
    List String :=
  crexiCollectLoop startP (startP + maxPages - 1) script 1 0 []

/-! ## `ecw_scraper_google_sheets.py` -/

/-- The spreadsheet operations a sheets function can perform, in order. -/
inductive SheetAction where
  | authorize : SheetAction
  | openByKey : String → SheetAction
  | getOrCreateWorksheet : String → SheetAction
  | batchClear : String → SheetAction
  | updateFrom : String → SheetAction
  | appendRow : SheetAction
deriving DecidableEq, Repr

/-- The message of the `RuntimeError` raised when importing gspread or
google-auth failed, identical in all three functions. -/
def GSPREAD_MISSING_MSG : String :=
  "gspread / google-auth are not installed. Either install them or disable Google Sheets upload."

/-- `upload_dataframe_to_google_sheet` (lines 15-50): the import check comes
first and raises before any spreadsheet action; otherwise authorize, open,
get-or-create the worksheet, clear `A2:Z1000` and write the values from `A2`
when there are any. -/
def upload_dataframe_to_google_sheet (libsOk : Bool) (rows : List CsvRow)
    (sheetId worksheetName : String) : Except String (List SheetAction) :=
  if !libsOk then .error GSPREAD_MISSING_MSG
  else .ok ([.authorize, .openByKey sheetId, .getOrCreateWorksheet worksheetName,
             .batchClear "A2:Z1000"] ++
            (if rows.isEmpty then [] else [.updateFrom "A2"]))

/-- `clear_worksheet_data` (lines 53-79). -/
def clear_worksheet_data (libsOk : Bool) (sheetId worksheetName : String) :
    Except String (List SheetAction) :=
  if !libsOk then .error GSPREAD_MISSING_MSG
  else .ok [.authorize, .openByKey sheetId, .getOrCreateWorksheet worksheetName,
            .batchClear "A2:Z1000"]

/-- `append_row_to_google_sheet` (lines 82-110). -/
def append_row_to_google_sheet (libsOk : Bool) (_row : List String)
    (sheetId worksheetName : String) : Except String (List SheetAction) :=
  if !libsOk then .error GSPREAD_MISSING_MSG
  else .ok [.authorize, .openByKey sheetId, .getOrCreateWorksheet worksheetName,
            .appendRow]

/-! ## Top-level control flow of the scraper scripts

The claims about operator interrupts and fatal crashes are about which
exceptions each script's main function catches.  The crawl phase is embedded
by its outcome: either it finished, yielding the contact list of each
region, or a `KeyboardInterrupt` arrived while some regions were complete and
the current region had gathered a partial list (a list that, in every
scraper, still sits in the local variable of the per-region helper and has
not been extended into `all_contacts`). -/

inductive CrawlOutcome where
  | finished : List (List BrokerContact) → CrawlOutcome
  | interruptedAt : List (List BrokerContact) → List BrokerContact → CrawlOutcome

/-- The writes a scraper's main function performs before exiting: `none` when
the function terminates by an uncaught exception before `save_to_csv`,
`some rows` when it writes the cleaned rows to the CSV file. -/
abbrev ScraperResult := Option (List CsvRow)

/-- `scrape_bizquest_directory` (`bizquest_scraper.py` lines 428-484): the
Playwright block (lines 449-469) has no `try`/`except KeyboardInterrupt`
around it, so an interrupt during the crawl propagates out of the function
and `save_to_csv` (line 473) is never reached; a finished crawl writes the
deduplicated rows of all regions. -/
def scrape_bizquest_directory : CrawlOutcome → ScraperResult
  | .finished regions => some (exportPipeline regions.flatten)
  | .interruptedAt _ _ => none

/-- `scrape_businessbroker_directory` (`businessbroker_scraper.py` lines
361-389): the crawl sits in `try ... except KeyboardInterrupt` (lines
361-384), and the save (lines 386-388) runs after the handler — but only
`all_contacts` is saved, so the partial list of the interrupted region is
lost. -/
def scrape_businessbroker_directory : CrawlOutcome → ScraperResult
  | .finished regions => some (exportPipeline regions.flatten)
  | .interruptedAt done _ => some (exportPipeline done.flatten)

/-- `scrape_ibba_directory` (`ibba_scraper.py` lines 509-536): same shape as
businessbroker, with `_save_and_upload_contacts(all_contacts)` called from
the `except KeyboardInterrupt` handler. -/
def scrape_ibba_directory : CrawlOutcome → ScraperResult
  | .finished regions => some (exportPipeline regions.flatten)
  | .interruptedAt done _ => some (exportPipeline done.flatten)

/-- `scrape_crexi_directory` (`crexi_scraper.py` lines 1133-1195): the crawl
sits in `try ... except KeyboardInterrupt`, and the save (lines 1189-1193)
runs only `if all_contacts:` — an empty list writes nothing. -/
def scrape_crexi_directory : CrawlOutcome → ScraperResult
  | .finished regions =>
    if regions.flatten.isEmpty then none else some (exportPipeline regions.flatten)
  | .interruptedAt done _ =>
    if done.flatten.isEmpty then none else some (exportPipeline done.flatten)

/-- The opening of `_scrape_state` in `businessbroker_scraper.py` (line 269):
`page.goto(state_url, ...)` runs outside any `try` in `_scrape_state`, and
the enclosing `try` of `scrape_businessbroker_directory` (line 361) catches
only `KeyboardInterrupt` (line 383), so a navigation failure there escalates
to an uncaught exception that terminates the process before any CSV is
written.  The argument is the outcome of that first navigation-and-scrape:
an error value is the exception text. -/
def businessbroker_run (crawl : Except String (List (List BrokerContact))) :
    Except String (List CsvRow) :=
  match crawl with
  | .error e => .error e
  | .ok regions => .ok (exportPipeline regions.flatten)

/-! ## Helper lemmas on the string primitives -/

theorem dropWhile_idem (p : Char → Bool) (l : List Char) :
    (l.dropWhile p).dropWhile p = l.dropWhile p := by
  induction l with
  | nil => rfl
  | cons a l ih =>
    by_cases h : p a
    · simp [List.dropWhile_cons, h, ih]
    · simp [List.dropWhile_cons, h]

theorem dropWhile_front_closed (p : Char → Bool) (v w u : List Char)
    (hvu : v ++ w = u) (hu : u.dropWhile p = u) : v.dropWhile p = v := by
  cases v with
  | nil => rfl
  | cons a v' =>
    have ha : p a = false := by
      by_contra hpa
      have hpa' : p a = true := by
        cases h : p a with
        | true => rfl
        | false => exact absurd h hpa
      have : u.dropWhile p = (v' ++ w).dropWhile p := by
        rw [← hvu, List.cons_append, List.dropWhile_cons]
        simp [hpa']
      have hlen : ((v' ++ w).dropWhile p).length ≤ (v' ++ w).length :=
        (List.dropWhile_sublist (l := v' ++ w) p).length_le
      rw [hu] at this
      have : u.length ≤ (v' ++ w).length := this ▸ hlen
      rw [← hvu] at this
      simp at this
    rw [List.dropWhile_cons]
    simp [ha]

theorem pyStripList_idem (cs : List Char) :
    pyStripList (pyStripList cs) = pyStripList cs := by
  unfold pyStripList
  set u := cs.dropWhile pyWs with hu
  set v := (u.reverse.dropWhile pyWs).reverse with hv
  have huu : u.dropWhile pyWs = u := dropWhile_idem pyWs cs
  have hsuf : ∃ t, t ++ u.reverse.dropWhile pyWs = u.reverse := List.dropWhile_suffix pyWs
  obtain ⟨t, ht⟩ := hsuf
  have hpre : v ++ t.reverse = u := by
    rw [hv]
    have := congrArg List.reverse ht
    simpa using this
  have hvdrop : v.dropWhile pyWs = v := dropWhile_front_closed pyWs v t.reverse u hpre huu
  have hvrev : v.reverse.dropWhile pyWs = v.reverse := by
    rw [hv, List.reverse_reverse]
    exact dropWhile_idem pyWs u.reverse
  rw [hvdrop, hvrev, hv, List.reverse_reverse]

theorem pyStrip_idem (s : String) : pyStrip (pyStrip s) = pyStrip s := by
  unfold pyStrip
  exact congrArg String.mk (pyStripList_idem s.toList)

theorem pyStrip_na : pyStrip "N/A" = "N/A" := by decide

theorem naOr_cases (v : String) : naOr v = "N/A" ∨ naOr v = pyStrip v := by
  unfold naOr
  by_cases h : pyStrip v = ""
  · left; simp [h]
  · right; simp [h]

theorem naOr_ne_empty (v : String) : naOr v ≠ "" := by
  unfold naOr
  by_cases h : pyStrip v = ""
  · rw [if_pos h]; decide
  · rw [if_neg h]; exact h

theorem pyStrip_naOr (v : String) : pyStrip (naOr v) = naOr v := by
  rcases naOr_cases v with h | h
  · rw [h, pyStrip_na]
  · rw [h, pyStrip_idem]

theorem loc_cases (l : String) :
    location_city_state_only l = "N/A" ∨ location_city_state_only l = naOr l := by
  unfold location_city_state_only
  by_cases h1 : naOr l = "N/A" ∨ (naOr l).length > 80
  · left
    rcases h1 with h1 | h1 <;> simp [h1]
  · push_neg at h1
    by_cases h2 : matchCityStateOnly (naOr l) = true
    · right; simp [h1.1, h1.2, h2]
    · left; simp [h1.1, h1.2, h2]

theorem loc_ne_empty (l : String) : location_city_state_only l ≠ "" := by
  rcases loc_cases l with h | h
  · rw [h]; decide
  · rw [h]; exact naOr_ne_empty l

theorem pyStrip_loc (l : String) :
    pyStrip (location_city_state_only l) = location_city_state_only l := by
  rcases loc_cases l with h | h
  · rw [h, pyStrip_na]
  · rw [h, pyStrip_naOr]

theorem stripRow_contactToRow (c : BrokerContact) :
    stripRow (contactToRow c) = contactToRow c := by
  unfold stripRow contactToRow
  simp [pyStrip_naOr, pyStrip_loc]

theorem stripRows_contactRows (contacts : List BrokerContact) :
    (contacts_to_dataframe contacts).map stripRow = contacts_to_dataframe contacts := by
  unfold contacts_to_dataframe
  rw [List.map_map]
  exact List.map_congr_left (fun c _ => stripRow_contactToRow c)

theorem clean_eq_dropDup (rows : List CsvRow) :
    clean_contacts_dataframe rows = dropDupByKey [] (rows.map stripRow) := by
  cases rows with
  | nil => rfl
  | cons r rs => rfl

theorem exportPipeline_eq (contacts : List BrokerContact) :
    exportPipeline contacts = dropDupByKey [] (contacts_to_dataframe contacts) := by
  unfold exportPipeline
  rw [clean_eq_dropDup, stripRows_contactRows]

/-! ## Helper lemmas on first-wins deduplication -/

theorem dropDup_sublist (seen : List String) (l : List CsvRow) :
    (dropDupByKey seen l).Sublist l := by
  induction l generalizing seen with
  | nil => simp [dropDupByKey]
  | cons r rs ih =>
    unfold dropDupByKey
    by_cases h : seen.contains (dedupKeyOf r)
    · simp only [h, if_pos]
      exact (ih seen).cons r
    · simp only [h, if_neg]
      exact (ih _).cons₂ r

theorem dropDup_find (seen : List String) (l : List CsvRow) (b : CsvRow)
    (hb : b ∈ dropDupByKey seen l) :
    l.find? (fun x => dedupKeyOf x == dedupKeyOf b) = some b ∧
      seen.contains (dedupKeyOf b) = false := by
  induction l generalizing seen with
  | nil => simp [dropDupByKey] at hb
  | cons r rs ih =>
    unfold dropDupByKey at hb
    by_cases h : seen.contains (dedupKeyOf r)
    · simp only [h, if_pos] at hb
      obtain ⟨hfind, hnotin⟩ := ih seen hb
      have hne : dedupKeyOf r ≠ dedupKeyOf b := by
        intro he
        rw [he] at h
        rw [h] at hnotin
        exact Bool.true_eq_false.mp hnotin
      constructor
      · rw [List.find?_cons]
        have : (dedupKeyOf r == dedupKeyOf b) = false := by
          simp [hne]
        rw [this]
        exact hfind
      · exact hnotin
    · simp only [h, if_neg] at hb
      have hnotseen : seen.contains (dedupKeyOf r) = false := by
        cases hx : seen.contains (dedupKeyOf r) with
        | true => exact absurd hx h
        | false => rfl
      rcases List.mem_cons.mp hb with rfl | hb2
      · constructor
        · rw [List.find?_cons]
          simp
        · exact hnotseen
      · obtain ⟨hfind, hnotin⟩ := ih (dedupKeyOf r :: seen) hb2
        have hcons : ((dedupKeyOf r :: seen).contains (dedupKeyOf b) = false) := hnotin
        have hne : dedupKeyOf b ≠ dedupKeyOf r := by
          intro he
          simp [List.contains_cons, he] at hcons
        constructor
        · rw [List.find?_cons]
          have : (dedupKeyOf r == dedupKeyOf b) = false := by
            simp [Ne.symm hne]
          rw [this]
          exact hfind
        · simp [List.contains_cons] at hcons
          simp [hcons.2]

theorem dropDup_nodup_keys (seen : List String) (l : List CsvRow) :
    ((dropDupByKey seen l).map dedupKeyOf).Nodup := by
  induction l generalizing seen with
  | nil => simp [dropDupByKey]
  | cons r rs ih =>
    unfold dropDupByKey
    by_cases h : seen.contains (dedupKeyOf r) = true
    · rw [if_pos h]
      exact ih seen
    · rw [if_neg h]
      simp only [List.map_cons, List.nodup_cons]
      refine ⟨?_, ih _⟩
      intro hmem
      obtain ⟨b, hb, hkey⟩ := List.mem_map.mp hmem
      obtain ⟨_, hnotin⟩ := dropDup_find _ _ b hb
      rw [hkey] at hnotin
      simp [List.contains_cons] at hnotin

theorem dropDup_covers (seen : List String) (l : List CsvRow) (a : CsvRow)
    (ha : a ∈ l) :
    seen.contains (dedupKeyOf a) = true ∨
      ∃ b ∈ dropDupByKey seen l, dedupKeyOf b = dedupKeyOf a := by
  induction l generalizing seen with
  | nil => simp at ha
  | cons r rs ih =>
    unfold dropDupByKey
    by_cases h : seen.contains (dedupKeyOf r)
    · simp only [h, if_pos]
      rcases List.mem_cons.mp ha with rfl | ha2
      · left; exact h
      · exact ih seen ha2
    · simp only [h, if_neg]
      rcases List.mem_cons.mp ha with rfl | ha2
      · right; exact ⟨a, List.mem_cons_self a _, rfl⟩
      · rcases ih (dedupKeyOf r :: seen) ha2 with hc | ⟨b, hb, hkb⟩
        · by_cases he : dedupKeyOf a = dedupKeyOf r
          · right; exact ⟨r, List.mem_cons_self r _, he.symm⟩
          · left
            simp [List.contains_cons, he] at hc
            simp [List.contains_cons, hc]
        · right; exact ⟨b, List.mem_cons_of_mem r hb, hkb⟩

/-! ## Claim C1 -/

/-- The dedup key the spec's words assign to an exported row: the no-phone
form `name|company` when the phone is absent, the phone form otherwise.
On the export path an absent phone is rendered as `"N/A"`, so that is the
phone-absent test here.  This definition follows the spec's words, for
comparison with `dedupKeyOf`, which follows the code. -/
def claimedSpecKey (r : CsvRow) : String :=
  if r.phone = "N/A" then pyLower r.fullName ++ "|" ++ pyLower r.company
  else pyLower r.fullName ++ "|" ++ digitsOf r.phone ++ "|" ++ pyLower r.company

/-- Contact with an absent phone, used by the C1 counterexample. -/
def contactJaneNoPhone : BrokerContact :=
  { full_name := "Jane Doe", phone_number := "", location := "Miami, FL",
    company := "Acme Co", email := "e@x.com", source_url := "u1", notes := "n" }

/-- Contact with a present but digit-free phone, used by the C1
counterexample. -/
def contactJaneOddPhone : BrokerContact :=
  { full_name := "Jane Doe", phone_number := "x", location := "",
    company := "Acme Co", email := "", source_url := "u2", notes := "n" }

/-- C1, counterexample: on the export path an absent phone is exported as
`"N/A"`, so the code's dedup key is `name + "||" + company` (the phone slot
contributes no digits), not the claimed `name + "|" + company`; consequently
a record with an absent phone and a record with a digit-free phone collapse
into one row even though their claimed keys differ — the claimed first-seen
rule would have retained both rows. -/
theorem c1_counterexample :
    exportPipeline [contactJaneNoPhone, contactJaneOddPhone] =
      [contactToRow contactJaneNoPhone] ∧
    claimedSpecKey (contactToRow contactJaneNoPhone) ≠
      claimedSpecKey (contactToRow contactJaneOddPhone) ∧
    claimedSpecKey (contactToRow contactJaneNoPhone) ≠
      dedupKeyOf (contactToRow contactJaneNoPhone) ∧
    dedupKeyOf (contactToRow contactJaneNoPhone) = "jane doe||acme co" := by
  decide

/-- C1, amended: on the export path every row's dedup key is
`lowercase(name) + "|" + digits(phone) + "|" + lowercase(company)` — the
no-phone key form is never used because `contacts_to_dataframe` renders an
absent phone as the non-empty string `"N/A"`, which contributes an empty
digit run; no two rows of the returned dataframe share this key, and for
each key the first-occurring row in input order is the one retained. -/
theorem c1_dedup_key_first_wins (contacts : List BrokerContact) :
    (∀ c : BrokerContact,
      dedupKeyOf (contactToRow c) =
        pyLower (naOr c.full_name) ++ "|" ++ digitsOf (naOr c.phone_number) ++
          "|" ++ pyLower (naOr c.company)) ∧
    (exportPipeline contacts).Sublist (contacts_to_dataframe contacts) ∧
    ((exportPipeline contacts).map dedupKeyOf).Nodup ∧
    ((contacts_to_dataframe contacts).all (fun r =>
      (exportPipeline contacts).any (fun b => dedupKeyOf b == dedupKeyOf r)) = true) ∧
    ((exportPipeline contacts).all (fun b =>
      (contacts_to_dataframe contacts).find? (fun x => dedupKeyOf x == dedupKeyOf b)
        == some b) = true) := by
  refine ⟨?_, ?_, ?_, ?_, ?_⟩
  · intro c
    unfold dedupKeyOf contactToRow
    simp only
    rw [pyStrip_naOr]
    simp [naOr_ne_empty]
  · rw [exportPipeline_eq]
    exact dropDup_sublist [] _
  · rw [exportPipeline_eq]
    exact dropDup_nodup_keys [] _
  · rw [exportPipeline_eq]
    rw [List.all_eq_true]
    intro r hr
    rcases dropDup_covers [] _ r hr with hc | ⟨b, hb, hkb⟩
    · simp [List.contains] at hc
    · rw [List.any_eq_true]
      exact ⟨b, hb, by simp [hkb]⟩
  · rw [exportPipeline_eq]
    rw [List.all_eq_true]
    intro b hb
    obtain ⟨hfind, _⟩ := dropDup_find [] _ b hb
    simp [hfind]

/-! ## Claim C5 -/

/-- C5: field extraction is best-effort with `"N/A"` as the sole sentinel —
`_safe_text` never returns the empty string, a missing element or raised
exception yields exactly `"N/A"`, a whitespace-only text yields `"N/A"`,
and every field of every exported row (both straight out of
`contacts_to_dataframe` and after dedup) is a non-empty string. -/
theorem c5_na_sentinel :
    (∀ t, safe_text t ≠ "") ∧
    safe_text none = "N/A" ∧
    (∀ s, safe_text (some s) = "N/A" ∨
      (safe_text (some s) = pyStrip s ∧ pyStrip s ≠ "")) ∧
    (∀ c : BrokerContact, (rowFields (contactToRow c)).all (fun f => !(f == "")) = true) ∧
    (∀ contacts : List BrokerContact, (exportPipeline contacts).all (fun r =>
      (rowFields r).all (fun f => !(f == ""))) = true) := by
  have hsafe : ∀ s, safe_text (some s) = "N/A" ∨
      (safe_text (some s) = pyStrip s ∧ pyStrip s ≠ "") := by
    intro s
    unfold safe_text
    by_cases h : pyStrip s = ""
    · left; simp [h]
    · right
      refine ⟨?_, h⟩
      simp only []
      rw [if_neg h]
  have hrow : ∀ c : BrokerContact,
      (rowFields (contactToRow c)).all (fun f => !(f == "")) = true := by
    intro c
    rw [List.all_eq_true]
    intro f hf
    simp only [rowFields, contactToRow] at hf
    simp only [List.mem_cons, List.not_mem_nil, or_false] at hf
    rcases hf with rfl | rfl | rfl | rfl | rfl | rfl | rfl
    · simp [naOr_ne_empty]
    · simp [naOr_ne_empty]
    · simp [loc_ne_empty]
    · simp [naOr_ne_empty]
    · simp [naOr_ne_empty]
    · simp [naOr_ne_empty]
    · simp [naOr_ne_empty]
  refine ⟨?_, rfl, hsafe, hrow, ?_⟩
  · intro t
    match t with
    | none => simp [safe_text]
    | some s =>
      rcases hsafe s with h | ⟨h, hne⟩
      · rw [h]; decide
      · rw [h]; exact hne
  · intro contacts
    rw [List.all_eq_true]
    intro r hr
    rw [exportPipeline_eq] at hr
    have hmem : r ∈ contacts_to_dataframe contacts :=
      (dropDup_sublist [] _).mem hr
    obtain ⟨c, _, rfl⟩ := List.mem_map.mp hmem
    exact hrow c

/-! ## Helper lemmas for the CSV round trip -/

/-- A character that the reading automaton treats as ordinary in an unquoted
field. -/
def csvPlain (c : Char) : Bool := c ≠ ',' && c ≠ '\n' && c ≠ '"'

theorem csvRun_plain (l : List Char) (hpl : ∀ c ∈ l, csvPlain c = true)
    (cur : List Char) (fl : List String) (rs : List (List String)) :
    l.foldl csvStep ⟨.unq, cur, fl, rs⟩ = ⟨.unq, cur ++ l, fl, rs⟩ := by
  induction l generalizing cur with
  | nil => simp
  | cons c l ih =>
    have hc := hpl c (List.mem_cons_self c l)
    unfold csvPlain at hc
    have h1 : (c = ',') = False := by simp_all
    have h2 : (c = '\n') = False := by simp_all
    have h3 : (c = '"') = False := by simp_all
    rw [List.foldl_cons]
    have hstep : csvStep ⟨.unq, cur, fl, rs⟩ c = ⟨.unq, cur ++ [c], fl, rs⟩ := by
      unfold csvStep
      simp [h1, h2, h3]
    rw [hstep]
    rw [ih (fun x hx => hpl x (List.mem_cons_of_mem c hx)) (cur ++ [c])]
    simp

theorem csvRun_quoted (l : List Char) (cur : List Char) (fl : List String)
    (rs : List (List String)) :
    (l.flatMap csvQQ).foldl csvStep ⟨.inq, cur, fl, rs⟩ = ⟨.inq, cur ++ l, fl, rs⟩ := by
  induction l generalizing cur with
  | nil => simp
  | cons c l ih =>
    rw [List.flatMap_cons]
    by_cases hc : c = '"'
    · subst hc
      have hqq : csvQQ '"' = ['"', '"'] := rfl
      rw [hqq]
      rw [show (['"', '"'] ++ l.flatMap csvQQ) = '"' :: '"' :: l.flatMap csvQQ from rfl]
      rw [List.foldl_cons, List.foldl_cons]
      have h1 : csvStep ⟨.inq, cur, fl, rs⟩ '"' = ⟨.postq, cur, fl, rs⟩ := by
        unfold csvStep; simp
      have h2 : csvStep ⟨.postq, cur, fl, rs⟩ '"' = ⟨.inq, cur ++ ['"'], fl, rs⟩ := by
        unfold csvStep; simp
      rw [h1, h2, ih (cur ++ ['"'])]
      simp
    · have hqq : csvQQ c = [c] := by unfold csvQQ; rw [if_neg hc]
      rw [hqq, List.singleton_append, List.foldl_cons]
      have h1 : csvStep ⟨.inq, cur, fl, rs⟩ c = ⟨.inq, cur ++ [c], fl, rs⟩ := by
        unfold csvStep
        simp [hc]
      rw [h1, ih (cur ++ [c])]
      simp

theorem csvRun_field (f : String) (fl : List String) (rs : List (List String)) :
    (csvEscField f).foldl csvStep ⟨.unq, [], fl, rs⟩ =
      if csvNeedsQuote f then (⟨.postq, f.toList, fl, rs⟩ : CsvSt)
      else ⟨.unq, f.toList, fl, rs⟩ := by
  by_cases hq : csvNeedsQuote f = true
  · rw [if_pos hq]
    unfold csvEscField
    rw [if_pos hq]
    rw [show ('"' :: (f.toList.flatMap csvQQ) ++ ['"'])
          = '"' :: ((f.toList.flatMap csvQQ) ++ ['"']) from rfl]
    rw [List.foldl_cons]
    have h1 : csvStep ⟨.unq, [], fl, rs⟩ '"' = ⟨.inq, [], fl, rs⟩ := by
      unfold csvStep; simp
    rw [h1, List.foldl_append, csvRun_quoted]
    simp only [List.nil_append, List.foldl_cons, List.foldl_nil]
    unfold csvStep
    simp
  · rw [if_neg hq]
    unfold csvEscField
    rw [if_neg hq]
    have hfalse : csvNeedsQuote f = false := by
      cases h : csvNeedsQuote f with
      | true => exact absurd h hq
      | false => rfl
    have hpl : ∀ c ∈ f.toList, csvPlain c = true := by
      intro c hc
      unfold csvNeedsQuote at hfalse
      rw [List.any_eq_false] at hfalse
      have h := hfalse c hc
      simp only [Bool.or_eq_true, decide_eq_true_eq, not_or] at h
      unfold csvPlain
      simp only [Bool.and_eq_true, bne_iff_ne, ne_eq, decide_eq_true_eq]
      exact ⟨⟨h.1.1.1, h.1.2⟩, h.1.1.2⟩
    have := csvRun_plain f.toList hpl [] fl rs
    simpa using this

theorem csvStep_comma (m : CsvMode) (hm : m = .unq ∨ m = .postq)
    (cur : List Char) (fl : List String) (rs : List (List String)) :
    csvStep ⟨m, cur, fl, rs⟩ ',' = ⟨.unq, [], fl ++ [String.mk cur], rs⟩ := by
  rcases hm with rfl | rfl
  · unfold csvStep; simp
  · unfold csvStep; simp

theorem csvStep_newline (m : CsvMode) (hm : m = .unq ∨ m = .postq)
    (cur : List Char) (fl : List String) (rs : List (List String)) :
    csvStep ⟨m, cur, fl, rs⟩ '\n' =
      ⟨.unq, [], [], rs ++ [fl ++ [String.mk cur]]⟩ := by
  rcases hm with rfl | rfl
  · unfold csvStep; simp
  · unfold csvStep; simp

theorem csvRun_line_aux (gs : List String) :
    ∀ (f : String) (fl : List String) (rs : List (List String)),
    (csvLine (f :: gs) ++ ['\n']).foldl csvStep ⟨.unq, [], fl, rs⟩ =
      ⟨.unq, [], [], rs ++ [fl ++ f :: gs]⟩ := by
  induction gs with
  | nil =>
    intro f fl rs
    show ((csvEscField f) ++ ['\n']).foldl csvStep ⟨.unq, [], fl, rs⟩ = _
    rw [List.foldl_append, csvRun_field]
    by_cases hq : csvNeedsQuote f = true
    · rw [if_pos hq]
      simp only [List.foldl_cons, List.foldl_nil]
      rw [csvStep_newline _ (Or.inr rfl)]
      rfl
    · rw [if_neg hq]
      simp only [List.foldl_cons, List.foldl_nil]
      rw [csvStep_newline _ (Or.inl rfl)]
      rfl
  | cons g hs ih =>
    intro f fl rs
    show ((csvEscField f ++ ',' :: csvLine (g :: hs)) ++ ['\n']).foldl csvStep
        ⟨.unq, [], fl, rs⟩ = _
    rw [List.append_assoc, List.foldl_append, csvRun_field]
    have hcont : ∀ m : CsvMode, m = .unq ∨ m = .postq →
        ((',' :: csvLine (g :: hs)) ++ ['\n']).foldl csvStep
            (⟨m, f.toList, fl, rs⟩ : CsvSt) =
          ⟨.unq, [], [], rs ++ [fl ++ f :: g :: hs]⟩ := by
      intro m hm
      rw [show ((',' :: csvLine (g :: hs)) ++ ['\n'])
            = ',' :: (csvLine (g :: hs) ++ ['\n']) from rfl]
      rw [List.foldl_cons, csvStep_comma m hm]
      rw [show String.mk f.toList = f from rfl]
      rw [ih g (fl ++ [f]) rs]
      simp
    by_cases hq : csvNeedsQuote f = true
    · rw [if_pos hq]
      exact hcont _ (Or.inr rfl)
    · rw [if_neg hq]
      exact hcont _ (Or.inl rfl)

theorem csvRun_line (fs : List String) (hne : fs ≠ []) (fl : List String)
    (rs : List (List String)) :
    (csvLine fs ++ ['\n']).foldl csvStep ⟨.unq, [], fl, rs⟩ =
      ⟨.unq, [], [], rs ++ [fl ++ fs]⟩ := by
  match fs with
  | [] => exact absurd rfl hne
  | f :: gs => exact csvRun_line_aux gs f fl rs

theorem csvRun_file (recs : List (List String)) (hne : ∀ fs ∈ recs, fs ≠ [])
    (rs : List (List String)) :
    (recs.flatMap (fun fs => csvLine fs ++ ['\n'])).foldl csvStep
        ⟨.unq, [], [], rs⟩ = ⟨.unq, [], [], rs ++ recs⟩ := by
  induction recs generalizing rs with
  | nil => simp
  | cons fs recs ih =>
    rw [List.flatMap_cons, List.foldl_append]
    rw [csvRun_line fs (hne fs (List.mem_cons_self fs recs)) []]
    rw [ih (fun x hx => hne x (List.mem_cons_of_mem fs hx))]
    simp

/-! ## Claim C9 -/

/-- C9: the CSV round trip.  Writing any exported record list with
`save_to_csv` and parsing the file back yields exactly the header row
followed by the data rows, hence the same number of data rows and the same
column list as the in-memory dataframe.  This holds for the deduplicated
list of any contact list, as the claim states, and indeed for any row list. -/
theorem c9_csv_round_trip (contacts : List BrokerContact) :
    parseCsv (save_to_csv (exportPipeline contacts)) =
      CSV_COLUMNS :: (exportPipeline contacts).map rowFields ∧
    (parseCsv (save_to_csv (exportPipeline contacts))).length =
      (exportPipeline contacts).length + 1 ∧
    (parseCsv (save_to_csv (exportPipeline contacts))).head? = some CSV_COLUMNS := by
  have key : ∀ rows : List CsvRow,
      parseCsv (save_to_csv rows) = CSV_COLUMNS :: rows.map rowFields := by
    intro rows
    unfold parseCsv save_to_csv
    have hne : ∀ fs ∈ CSV_COLUMNS :: rows.map rowFields, fs ≠ [] := by
      intro fs hfs
      rcases List.mem_cons.mp hfs with rfl | hfs2
      · simp [CSV_COLUMNS]
      · obtain ⟨r, _, rfl⟩ := List.mem_map.mp hfs2
        simp [rowFields]
    rw [csvRun_file _ hne []]
    simp
  refine ⟨key _, ?_, ?_⟩
  · rw [key]
    simp
  · rw [key]
    rfl

/-! ## Helper lemmas on substring containment -/

theorem isPrefixOf_correct (l₁ l₂ : List Char) :
    l₁.isPrefixOf l₂ = true ↔ ∃ t, l₂ = l₁ ++ t := by
  induction l₁ generalizing l₂ with
  | nil =>
    simp [List.isPrefixOf]
  | cons a l ih =>
    cases l₂ with
    | nil => simp [List.isPrefixOf]
    | cons b l₂ =>
      rw [show (a :: l).isPrefixOf (b :: l₂) = (a == b && l.isPrefixOf l₂) from rfl]
      rw [Bool.and_eq_true]
      constructor
      · rintro ⟨hab, hpre⟩
        obtain ⟨t, ht⟩ := (ih l₂).mp hpre
        exact ⟨t, by rw [List.cons_append, ht, beq_iff_eq.mp hab]⟩
      · rintro ⟨t, ht⟩
        rw [List.cons_append] at ht
        injection ht with hba hl
        exact ⟨beq_iff_eq.mpr hba.symm, (ih l₂).mpr ⟨t, hl⟩⟩

theorem findSome?_inv {α β : Type} (f : α → Option β) (l : List α) (b : β)
    (h : l.findSome? f = some b) : ∃ a ∈ l, f a = some b := by
  induction l with
  | nil => simp [List.findSome?] at h
  | cons a l ih =>
    rw [List.findSome?_cons] at h
    cases hfa : f a with
    | some c =>
      rw [hfa] at h
      exact ⟨a, List.mem_cons_self a l, by rw [hfa]; exact h⟩
    | none =>
      rw [hfa] at h
      obtain ⟨x, hx, hfx⟩ := ih h
      exact ⟨x, List.mem_cons_of_mem a hx, hfx⟩

theorem pyContains_iff (hay needle : String) :
    pyContains hay needle = true ↔ SubstrOccurs needle hay := by
  unfold pyContains SubstrOccurs
  rw [List.any_eq_true]
  constructor
  · rintro ⟨t, hmem, hpre⟩
    obtain ⟨s, hs⟩ := (List.mem_tails _ _).mp hmem
    obtain ⟨u, hu⟩ := (isPrefixOf_correct _ _).mp hpre
    exact ⟨s, u, by rw [← hs, hu, List.append_assoc]⟩
  · rintro ⟨s, t, hst⟩
    refine ⟨needle.toList ++ t, ?_, ?_⟩
    · exact (List.mem_tails _ _).mpr ⟨s, by rw [hst, List.append_assoc]⟩
    · exact (isPrefixOf_correct _ _).mpr ⟨t, rfl⟩

/-! ## Claim C2 -/

/-- C2, amended: the BizQuest/BusinessBroker keyword matcher returns exactly
the keywords of the fixed list that occur as substrings of the lowercased
text, in declaration order, and matched is true exactly when that list is
non-empty; the Crexi matcher returns exactly that set of keywords but gives
no order guarantee, because it pipes the list through a Python `set`
(embedded as an arbitrary duplicate-free enumeration `enum`). -/
theorem c2_keyword_matcher :
    (∀ body : String,
      (profile_contains_ecw_keywords body).2 =
        ECW_KEYWORDS.filter (fun kw => pyContains (pyLower body) kw) ∧
      (profile_contains_ecw_keywords body).2.Sublist ECW_KEYWORDS ∧
      (∀ kw, kw ∈ (profile_contains_ecw_keywords body).2 ↔
        kw ∈ ECW_KEYWORDS ∧ SubstrOccurs kw (pyLower body)) ∧
      ((profile_contains_ecw_keywords body).1 = true ↔
        (profile_contains_ecw_keywords body).2 ≠ [])) ∧
    (∀ enum, ValidSetEnum enum → ∀ body : String,
      (crexi_profile_text_keywords enum body).2.Perm
        (KEYWORDS.filter (fun kw => pyContains (pyLower body) (pyLower kw))) ∧
      ((crexi_profile_text_keywords enum body).1 = true ↔
        (crexi_profile_text_keywords enum body).2 ≠ [])) := by
  constructor
  · intro body
    refine ⟨rfl, List.filter_sublist _, ?_, ?_⟩
    · intro kw
      unfold profile_contains_ecw_keywords
      simp only [List.mem_filter]
      rw [pyContains_iff]
    · unfold profile_contains_ecw_keywords
      simp
  · intro enum henum body
    have hkw : KEYWORDS.Nodup := by decide
    have hperm : (crexi_profile_text_keywords enum body).2.Perm
        (KEYWORDS.filter (fun kw => pyContains (pyLower body) (pyLower kw))) := by
      unfold crexi_profile_text_keywords
      simp only [List.append_nil]
      obtain ⟨hnd, hmem⟩ :=
        henum (KEYWORDS.filter (fun kw => pyContains (pyLower body) (pyLower kw)))
      rw [List.perm_ext_iff_of_nodup hnd (hkw.filter _)]
      exact hmem
    refine ⟨hperm, ?_⟩
    unfold crexi_profile_text_keywords at *
    simp

/-- The body text of the C2 counterexample: two keywords match. -/
def crexiOrderText : String := "we offer tunnel wash and car wash services"

/-- C2, counterexample: the claim's "in the keyword list's declaration order"
fails for the Crexi matcher.  `revSetEnum` is an admissible enumeration of
`list(set(...))` (Python's set promises membership and no duplicates, not
order; its string iteration order is hash-randomised per process), and under
it a text matching "tunnel wash" and "car wash" comes back in the reversed
order. -/
theorem c2_counterexample :
    ValidSetEnum revSetEnum ∧
    (crexi_profile_text_keywords revSetEnum crexiOrderText).2 =
      ["car wash", "tunnel wash"] ∧
    KEYWORDS.filter (fun kw => pyContains (pyLower crexiOrderText) (pyLower kw)) =
      ["tunnel wash", "car wash"] ∧
    (crexi_profile_text_keywords revSetEnum crexiOrderText).2 ≠
      KEYWORDS.filter (fun kw => pyContains (pyLower crexiOrderText) (pyLower kw)) := by
  refine ⟨?_, by decide, by decide, by decide⟩
  intro xs
  constructor
  · exact List.nodup_reverse.mpr xs.nodup_dedup
  · intro a
    unfold revSetEnum
    rw [List.mem_reverse, List.mem_dedup]

/-- C2, witness: the matcher theorem applied to the spec's own example text
and, for the Crexi half, to the admissible enumeration `revSetEnum`. -/
theorem c2_keyword_matcher_witness :
    (profile_contains_ecw_keywords
        "We specialize in Tunnel Wash and retail pad sites").1 = true ∧
    (profile_contains_ecw_keywords
        "We specialize in Tunnel Wash and retail pad sites").2 = ["tunnel wash"] ∧
    (crexi_profile_text_keywords revSetEnum crexiOrderText).2.Perm
      (KEYWORDS.filter (fun kw => pyContains (pyLower crexiOrderText) (pyLower kw))) := by
  refine ⟨?_, by decide, ?_⟩
  · exact ((c2_keyword_matcher.1 _).2.2.2).mpr (by decide)
  · refine (c2_keyword_matcher.2 revSetEnum ?_ crexiOrderText).1
    intro xs
    exact ⟨List.nodup_reverse.mpr xs.nodup_dedup,
      fun a => by unfold revSetEnum; rw [List.mem_reverse, List.mem_dedup]⟩

/-! ## Claim C10 -/

theorem ibbaPass1_header_free : ∀ entries : List TelEntry,
    (∀ e ∈ entries, is_ibba_header (normalize_phone_digits (pyStrip e.text)) = false) →
    ∀ r, ibbaPhonePass1 entries = some r →
      is_ibba_header (normalize_phone_digits r) = false := by
  intro entries
  induction entries with
  | nil =>
    intro _ r h
    simp [ibbaPhonePass1] at h
  | cons e rest ih =>
    intro hT r h
    have hTe := hT e (List.mem_cons_self e rest)
    have hTrest : ∀ x ∈ rest,
        is_ibba_header (normalize_phone_digits (pyStrip x.text)) = false :=
      fun x hx => hT x (List.mem_cons_of_mem e hx)
    obtain ⟨href, txt⟩ := e
    cases href with
    | none =>
      simp only [ibbaPhonePass1] at h
      exact ih hTrest r h
    | some hr =>
      simp only [ibbaPhonePass1] at h
      split at h
      · exact ih hTrest r h
      · split at h
        · exact ih hTrest r h
        · split at h
          · rename_i hhdr hlen
            injection h with h
            subst h
            by_cases htx : (pyStrip txt ≠ "" && hasDigit (pyStrip txt)) = true
            · rw [if_pos htx]
              exact hTe
            · rw [if_neg htx]
              cases hx : is_ibba_header (normalize_phone_digits (hrefNumRaw hr)) with
              | false => rfl
              | true => exact absurd hx hhdr
          · exact ih hTrest r h

theorem ibbaPass2_header_free : ∀ (entries : List TelEntry) (r : String),
    ibbaPhonePass2 entries = some r →
      is_ibba_header (normalize_phone_digits r) = false := by
  intro entries
  induction entries with
  | nil =>
    intro r h
    simp [ibbaPhonePass2] at h
  | cons e rest ih =>
    intro r h
    unfold ibbaPhonePass2 at h
    split at h
    · exact ih r h
    · split at h
      · exact ih r h
      · split at h
        · rename_i hhdr hlen
          injection h with h
          subst h
          cases hx : is_ibba_header (normalize_phone_digits (pyStrip e.text)) with
          | false => rfl
          | true => exact absurd hx hhdr
        · exact ih r h

/-- C10, amended: the Crexi phone extractor returns a phone only if its
normalised digits (a leading 1 stripped from an 11-digit run) have exactly
length 10 and are not the support number; the Crexi email extractor never
returns `support@crexi.com` in any casing; the IBBA phone extractor filters
the header number on every href it accepts and on every displayed text its
second pass returns — but the displayed text returned for an accepted href
is not itself re-validated, so the extractor-wide guarantee additionally
needs every anchor's displayed text to be header-free (the counterexample
shows this weakening is real). -/
theorem c10_blocked_numbers :
    (∀ text : String, extract_phone_from_text text = "N/A" ∨
      ((dropLeadingOne (digitsOf (extract_phone_from_text text))).length = 10 ∧
        dropLeadingOne (digitsOf (extract_phone_from_text text)) ≠ "8882730423")) ∧
    (∀ text : String, pyLower (extract_email_from_text text) ≠ "support@crexi.com") ∧
    (∀ entries : List TelEntry,
      (∀ e ∈ entries, is_ibba_header (normalize_phone_digits (pyStrip e.text)) = false) →
      is_ibba_header
        (normalize_phone_digits (ibba_extract_phone_from_profile entries)) = false) := by
  refine ⟨?_, ?_, ?_⟩
  · intro text
    unfold extract_phone_from_text
    by_cases ht : text = ""
    · left
      rw [if_pos ht]
    · rw [if_neg ht]
      cases hfs : [rePhone1, rePhone2, rePhone3].findSome? (crexiTryPhonePattern text) with
      | none => left; rfl
      | some phone =>
        obtain ⟨p, _, hp⟩ := findSome?_inv _ _ _ hfs
        unfold crexiTryPhonePattern at hp
        cases hsearch : reSearch p text with
        | none =>
          rw [hsearch] at hp
          exact absurd hp (by simp)
        | some m =>
          rw [hsearch] at hp
          simp only [] at hp
          split at hp
          · rename_i hcond
            rw [Bool.and_eq_true] at hcond
            obtain ⟨hlen, hblk⟩ := hcond
            right
            have hphone : phone = pyStrip (String.mk m.1) := by
              injection hp with h
              exact h.symm
            rw [hphone]
            refine ⟨by simpa using hlen, ?_⟩
            intro hcontra
            rw [hcontra] at hblk
            simp [BLOCKED_PHONE_DIGITS] at hblk
          · exact absurd hp (by simp)
  · intro text
    unfold extract_email_from_text
    by_cases ht : text = ""
    · rw [if_pos ht]
      decide
    · rw [if_neg ht]
      cases hsearch : reSearch reEmail text with
      | none => decide
      | some m =>
        simp only []
        by_cases hb : BLOCKED_EMAILS.contains (pyLower (pyStrip (String.mk m.1))) = true
        · rw [if_pos hb]
          decide
        · rw [if_neg hb]
          intro hcontra
          rw [hcontra] at hb
          simp [BLOCKED_EMAILS] at hb
  · intro entries hT
    unfold ibba_extract_phone_from_profile
    cases h1 : ibbaPhonePass1 entries with
    | some r => exact ibbaPass1_header_free entries hT r h1
    | none =>
      cases h2 : ibbaPhonePass2 entries with
      | some r => exact ibbaPass2_header_free entries r h2
      | none => decide

/-- The mismatched anchor of the C10 counterexample: the href digits are a
legitimate number, the displayed text is the IBBA site-header number. -/
def ibbaMismatchedTel : TelEntry :=
  ⟨some "tel:2125551234", "(888) 686-4222"⟩

/-- C10, counterexample: the IBBA extractor checks the href digits but
returns the displayed text, so an anchor whose href is legitimate while its
text is the site-header number makes the extractor return the header number
— the claim says it never does. -/
theorem c10_counterexample :
    ibba_extract_phone_from_profile [ibbaMismatchedTel] = "(888) 686-4222" ∧
    is_ibba_header (normalize_phone_digits "(888) 686-4222") = true := by
  decide

/-- C10, witness: the amended theorem applied at concrete inputs, the
clean-anchors hypothesis discharged by evaluation. -/
theorem c10_blocked_numbers_witness :
    (extract_phone_from_text "call (305) 555-1234 today" = "N/A" ∨
      ((dropLeadingOne (digitsOf
          (extract_phone_from_text "call (305) 555-1234 today"))).length = 10 ∧
        dropLeadingOne (digitsOf
          (extract_phone_from_text "call (305) 555-1234 today")) ≠ "8882730423")) ∧
    pyLower (extract_email_from_text "write support@crexi.com now") ≠
      "support@crexi.com" ∧
    is_ibba_header (normalize_phone_digits (ibba_extract_phone_from_profile
      [⟨some "tel:3055551234", "305-555-1234"⟩])) = false := by
  exact ⟨c10_blocked_numbers.1 _, c10_blocked_numbers.2.1 _,
    c10_blocked_numbers.2.2 _ (by decide)⟩

/-! ## Helper lemmas for the location parser -/

theorem bnot_true_eq_false {b : Bool} (h : (!b) = true) : b = false := by
  cases b
  · rfl
  · simp at h

theorem head?_dropWhile_false (p : Char → Bool) (l : List Char) (c : Char)
    (h : (l.dropWhile p).head? = some c) : p c = false := by
  induction l with
  | nil => simp at h
  | cons a l ih =>
    rw [List.dropWhile_cons] at h
    by_cases hp : p a = true
    · rw [if_pos hp] at h
      exact ih h
    · rw [if_neg hp] at h
      have hac : a = c := by simpa using h
      subst hac
      cases hx : p a with
      | false => rfl
      | true => exact absurd hx hp

theorem csoList_shape (cs : List Char)
    (hpre : (cs.takeWhile (fun c => c ≠ ',')).isEmpty = false)
    (hrest : (cs.dropWhile (fun c => c ≠ ',')).isEmpty = false)
    (hlen : ((cs.dropWhile (fun c => c ≠ ',')).tail.dropWhile pyWs).length = 2)
    (hall : ((cs.dropWhile (fun c => c ≠ ',')).tail.dropWhile pyWs).all
      isAsciiAlpha = true) :
    ∃ cityCs rest a b, cs = cityCs ++ ',' :: rest ∧ cityCs ≠ [] ∧
      cityCs.all (fun c => !(c == ',')) = true ∧ rest.dropWhile pyWs = [a, b] ∧
      isAsciiAlpha a = true ∧ isAsciiAlpha b = true := by
  cases hr : cs.dropWhile (fun c => c ≠ ',') with
  | nil =>
    rw [hr] at hrest
    simp at hrest
  | cons x xs =>
    have hx : (fun c => decide (c ≠ ',')) x = false :=
      head?_dropWhile_false _ cs x (by rw [hr]; rfl)
    have hx2 : x = ',' := by simpa using hx
    have hsplit : cs.takeWhile (fun c => c ≠ ',') ++ x :: xs = cs := by
      rw [← hr]
      exact List.takeWhile_append_dropWhile (p := fun c => decide (c ≠ ',')) (l := cs)
    rw [hr] at hlen hall
    simp only [List.tail_cons] at hlen hall
    obtain ⟨a, b, htab⟩ : ∃ a b, xs.dropWhile pyWs = [a, b] := by
      match hy : xs.dropWhile pyWs, hlen with
    | [a, b], _ => exact ⟨a, b, rfl⟩
    refine ⟨cs.takeWhile (fun c => c ≠ ','), xs, a, b, ?_, ?_, ?_, htab, ?_, ?_⟩
    · rw [hx2] at hsplit
      exact hsplit.symm
    · intro he
      rw [he] at hpre
      simp at hpre
    · rw [List.all_eq_true]
      intro c hc
      have := List.mem_takeWhile_imp hc
      simp only [decide_eq_true_eq] at this
      simp [this]
    · rw [htab] at hall
      exact (List.all_eq_true.mp hall) a (List.mem_cons_self a _)
    · rw [htab] at hall
      exact (List.all_eq_true.mp hall) b (List.mem_cons_of_mem a (List.mem_cons_self b _))

theorem matchCSO_shape (s : String) (h : matchCityStateOnly s = true) :
    ∃ cityCs rest a b, dropFinalNl s.toList = cityCs ++ ',' :: rest ∧
      cityCs ≠ [] ∧ cityCs.all (fun c => !(c == ',')) = true ∧
      rest.dropWhile pyWs = [a, b] ∧
      isAsciiAlpha a = true ∧ isAsciiAlpha b = true := by
  unfold matchCityStateOnly at h
  simp only [Bool.and_eq_true] at h
  obtain ⟨⟨hpre, hrest⟩, hlen, hall⟩ := h
  exact csoList_shape (dropFinalNl s.toList) (bnot_true_eq_false hpre)
    (bnot_true_eq_false hrest) (of_decide_eq_true hlen) hall

theorem stateLookup_some (k ab : String) (h : stateLookup k = some ab) :
    ab.length = 2 ∧ ab ∈ stateAbbrevVals := by
  unfold stateLookup at h
  cases hf : STATE_ABBREV.find? (fun p => p.1 = k) with
  | none =>
    rw [hf] at h
    exact absurd h (by simp)
  | some pr =>
    rw [hf] at h
    simp only [Option.map_some'] at h
    injection h with h
    have hmem := List.mem_of_find?_eq_some hf
    have hlen : ∀ q ∈ STATE_ABBREV, (q.2 : String).length = 2 := by decide
    exact ⟨h ▸ hlen pr hmem, h ▸ List.mem_map.mpr ⟨pr, hmem, rfl⟩⟩

theorem bqValidateTable_inv (city stateRaw out : String)
    (h : bqValidateTable city stateRaw = some out) :
    ∃ ab, stateLookup (pyLower stateRaw) = some ab ∧ out = city ++ ", " ++ ab ∧
      city ≠ "" ∧ city.length ≤ 50 ∧ isNumericOnly city = false ∧
      matchCityStateOnly out = true := by
  unfold bqValidateTable at h
  split at h
  · exact absurd h (by simp)
  · rename_i hguard
    cases hlk : stateLookup (pyLower stateRaw) with
    | none =>
      rw [hlk] at h
      exact absurd h (by simp)
    | some ab =>
      rw [hlk] at h
      simp only [] at h
      split at h
      · rename_i hcso
        injection h with h
        subst h
        simp only [Bool.or_eq_true, decide_eq_true_eq, not_or] at hguard
        refine ⟨ab, rfl, rfl, hguard.1.1, ?_, ?_, hcso⟩
        · exact Nat.le_of_not_lt hguard.1.2
        · cases hx : isNumericOnly city with
          | false => rfl
          | true => exact absurd hx hguard.2
      · exact absurd h (by simp)

theorem bqValidateTwoLetter_inv (city state out : String)
    (h : bqValidateTwoLetter city state = some out) :
    out = city ++ ", " ++ state ∧ state.length = 2 ∧ city ≠ "" ∧
      city.length ≤ 50 ∧ isNumericOnly city = false ∧
      matchCityStateOnly out = true := by
  unfold bqValidateTwoLetter at h
  split at h
  · exact absurd h (by simp)
  · rename_i hguard
    split at h
    · rename_i hcso
      injection h with h
      subst h
      simp only [Bool.or_eq_true, decide_eq_true_eq, not_or] at hguard
      refine ⟨rfl, ?_, hguard.1.1.2, Nat.le_of_not_lt hguard.1.2, ?_, hcso⟩
      · have := hguard.1.1.1
        omega
      · cases hx : isNumericOnly city with
        | false => rfl
        | true => exact absurd hx hguard.2
    · exact absurd h (by simp)

theorem parse_success_inv (text : String) :
    parse_city_state text = "N/A" ∨
    ∃ city st, parse_city_state text = city ++ ", " ++ st ∧ city ≠ "" ∧
      city.length ≤ 50 ∧ isNumericOnly city = false ∧ st.length = 2 ∧
      matchCityStateOnly (city ++ ", " ++ st) = true := by
  unfold parse_city_state
  split
  · left; rfl
  · cases h1 : bqBranchZip (pyJoinWords (replaceNbsp text)) with
    | some o =>
      right
      obtain ⟨mc, _, hv⟩ := findSome?_inv _ _ _ h1
      obtain ⟨ab, hlk, ho, hc1, hc2, hc3, hcso⟩ := bqValidateTable_inv _ _ _ hv
      obtain ⟨hablen, _⟩ := stateLookup_some _ _ hlk
      exact ⟨_, ab, ho, hc1, hc2, hc3, hablen, ho ▸ hcso⟩
    | none =>
      cases h2 : bqBranchCityST (pyJoinWords (replaceNbsp text)) with
      | some o =>
        right
        obtain ⟨mc, _, hv⟩ := findSome?_inv _ _ _ h2
        obtain ⟨ho, hst, hc1, hc2, hc3, hcso⟩ := bqValidateTwoLetter_inv _ _ _ hv
        exact ⟨_, _, ho, hc1, hc2, hc3, hst, ho ▸ hcso⟩
      | none =>
        cases h3 : bqBranchFull (pyJoinWords (replaceNbsp text)) with
        | some o =>
          right
          obtain ⟨mc, _, hv⟩ := findSome?_inv _ _ _ h3
          obtain ⟨ab, hlk, ho, hc1, hc2, hc3, hcso⟩ := bqValidateTable_inv _ _ _ hv
          obtain ⟨hablen, _⟩ := stateLookup_some _ _ hlk
          exact ⟨_, ab, ho, hc1, hc2, hc3, hablen, ho ▸ hcso⟩
        | none =>
          cases h4 : bqBranchFallback (pyJoinWords (replaceNbsp text)) with
          | some o =>
            right
            obtain ⟨mc, _, hv⟩ := findSome?_inv _ _ _ h4
            obtain ⟨ho, hst, hc1, hc2, hc3, hcso⟩ := bqValidateTwoLetter_inv _ _ _ hv
            exact ⟨_, _, ho, hc1, hc2, hc3, hst, ho ▸ hcso⟩
          | none => left; rfl

theorem loc_inv (loc : String) :
    location_city_state_only loc = "N/A" ∨
      matchCityStateOnly (location_city_state_only loc) = true := by
  unfold location_city_state_only
  split
  · left; rfl
  · split
    · rename_i hcso
      right
      exact hcso
    · left; rfl

/-! ## Claim C3 -/

/-- C3, amended: for every input text the location parser returns either the
exact string `"N/A"` or a string accepted by `_CITY_STATE_ONLY`, i.e. of the
form `<non-empty comma-free city>,<whitespace><two ASCII letters>` — the
two letters are NOT guaranteed uppercase (the two-letter-state branches keep
the captured case); the same holds for the dataframe column filtered by
`_location_city_state_only`, additionally with no guaranteed space after the
comma. -/
theorem c3_location_shape :
    (∀ text : String, parse_city_state text = "N/A" ∨
      (matchCityStateOnly (parse_city_state text) = true ∧
       ∃ cityCs rest a b,
         dropFinalNl (parse_city_state text).toList = cityCs ++ ',' :: rest ∧
         cityCs ≠ [] ∧ cityCs.all (fun c => !(c == ',')) = true ∧
         rest.dropWhile pyWs = [a, b] ∧
         isAsciiAlpha a = true ∧ isAsciiAlpha b = true)) ∧
    (∀ loc : String, location_city_state_only loc = "N/A" ∨
      (matchCityStateOnly (location_city_state_only loc) = true ∧
       ∃ cityCs rest a b,
         dropFinalNl (location_city_state_only loc).toList = cityCs ++ ',' :: rest ∧
         cityCs ≠ [] ∧ cityCs.all (fun c => !(c == ',')) = true ∧
         rest.dropWhile pyWs = [a, b] ∧
         isAsciiAlpha a = true ∧ isAsciiAlpha b = true)) := by
  constructor
  · intro text
    rcases parse_success_inv text with h | ⟨city, st, ho, _, _, _, _, hcso⟩
    · left; exact h
    · right
      have hcso2 : matchCityStateOnly (parse_city_state text) = true := by
        rw [ho]; exact hcso
      exact ⟨hcso2, matchCSO_shape _ hcso2⟩
  · intro loc
    rcases loc_inv loc with h | hcso
    · left; exact h
    · right
      exact ⟨hcso, matchCSO_shape _ hcso⟩

/-- The output shape the claim asserts, following the spec's words: the
string `"N/A"`, or `<non-empty city> ++ ", " ++ <two uppercase letters>`
(decided from the reversed character list).  This definition follows the
spec's words, for comparison with the code's outputs. -/
def claimedUpperShape (s : String) : Bool :=
  s = "N/A" ||
    (match s.toList.reverse with
     | b :: a :: ' ' :: ',' :: rest =>
       ('A' ≤ a && a ≤ 'Z') && ('A' ≤ b && b ≤ 'Z') && !rest.isEmpty
     | _ => false)

/-- C3, counterexample: the parser can return a lowercase two-letter state:
`parse_city_state "Miami, fl"` is `"Miami, fl"`, which is not `"N/A"` and is
not of the claimed form `"<city>, <two uppercase letters>"`; the dataframe
filter passes the same string through. -/
theorem c3_counterexample :
    parse_city_state "Miami, fl" = "Miami, fl" ∧
    location_city_state_only "Miami, fl" = "Miami, fl" ∧
    claimedUpperShape "Miami, fl" = false ∧
    claimedUpperShape "Miami, FL" = true := by
  decide

/-! ## Claim C4 -/

/-- C4, amended: `parse_city_state` tries FOUR patterns in a fixed order —
city-state-zip, city with two-letter state, city with full state name, and a
generic city-two-letter fallback the claim omits; only the two
full-state-name branches (1 and 3) validate the captured state against the
50-state+DC table — a two-letter state capture is accepted without table
validation (`_normalize_state` likewise uppercases any two-letter alphabetic
string without consulting the table); numeric-only and overlong cities are
rejected in every branch, and `"N/A"` is returned when no branch validates. -/
theorem c4_pattern_order_and_validation :
    (∀ text o, text ≠ "" → ¬ text.length > 2000 →
      (bqBranchZip (pyJoinWords (replaceNbsp text)) = some o →
        parse_city_state text = o) ∧
      (bqBranchZip (pyJoinWords (replaceNbsp text)) = none →
        bqBranchCityST (pyJoinWords (replaceNbsp text)) = some o →
        parse_city_state text = o) ∧
      (bqBranchZip (pyJoinWords (replaceNbsp text)) = none →
        bqBranchCityST (pyJoinWords (replaceNbsp text)) = none →
        bqBranchFull (pyJoinWords (replaceNbsp text)) = some o →
        parse_city_state text = o) ∧
      (bqBranchZip (pyJoinWords (replaceNbsp text)) = none →
        bqBranchCityST (pyJoinWords (replaceNbsp text)) = none →
        bqBranchFull (pyJoinWords (replaceNbsp text)) = none →
        bqBranchFallback (pyJoinWords (replaceNbsp text)) = some o →
        parse_city_state text = o)) ∧
    (∀ text, text ≠ "" → ¬ text.length > 2000 →
      bqBranchZip (pyJoinWords (replaceNbsp text)) = none →
      bqBranchCityST (pyJoinWords (replaceNbsp text)) = none →
      bqBranchFull (pyJoinWords (replaceNbsp text)) = none →
      bqBranchFallback (pyJoinWords (replaceNbsp text)) = none →
      parse_city_state text = "N/A") ∧
    (∀ t o, bqBranchZip t = some o ∨ bqBranchFull t = some o →
      ∃ city ab, o = city ++ ", " ++ ab ∧ ab ∈ stateAbbrevVals) ∧
    (∀ text, parse_city_state text = "N/A" ∨
      ∃ city st, parse_city_state text = city ++ ", " ++ st ∧ city ≠ "" ∧
        city.length ≤ 50 ∧ isNumericOnly city = false ∧ st.length = 2) := by
  have hcond : ∀ text : String, text ≠ "" → ¬ text.length > 2000 →
      (text = "" || text.length > 2000) = false := by
    intro text h1 h2
    simp [h1, h2]
  refine ⟨?_, ?_, ?_, ?_⟩
  · intro text o h1 h2
    refine ⟨?_, ?_, ?_, ?_⟩
    · intro hz
      unfold parse_city_state
      rw [hcond text h1 h2]
      simp only [Bool.false_eq_true, if_false]
      rw [hz]
    · intro hz hc
      unfold parse_city_state
      rw [hcond text h1 h2]
      simp only [Bool.false_eq_true, if_false]
      rw [hz, hc]
    · intro hz hc hf
      unfold parse_city_state
      rw [hcond text h1 h2]
      simp only [Bool.false_eq_true, if_false]
      rw [hz, hc, hf]
    · intro hz hc hf hfb
      unfold parse_city_state
      rw [hcond text h1 h2]
      simp only [Bool.false_eq_true, if_false]
      rw [hz, hc, hf, hfb]
  · intro text h1 h2 hz hc hf hfb
    unfold parse_city_state
    rw [hcond text h1 h2]
    simp only [Bool.false_eq_true, if_false]
    rw [hz, hc, hf, hfb]
  · intro t o h
    have hinv : ∃ city stateRaw, bqValidateTable city stateRaw = some o := by
      rcases h with h | h
      · obtain ⟨mc, _, hv⟩ := findSome?_inv _ _ _ h
        exact ⟨_, _, hv⟩
      · obtain ⟨mc, _, hv⟩ := findSome?_inv _ _ _ h
        exact ⟨_, _, hv⟩
    obtain ⟨city, stateRaw, hv⟩ := hinv
    obtain ⟨ab, hlk, ho, _, _, _, _⟩ := bqValidateTable_inv _ _ _ hv
    obtain ⟨_, hmem⟩ := stateLookup_some _ _ hlk
    exact ⟨city, ab, ho, hmem⟩
  · intro text
    rcases parse_success_inv text with h | ⟨city, st, ho, hc1, hc2, hc3, hst, _⟩
    · left; exact h
    · right
      exact ⟨city, st, ho, hc1, hc2, hc3, hst⟩

/-- C4, counterexample: a two-letter state is returned without table
validation — `"Springfield, ZZ"` parses to `"Springfield, ZZ"` although `ZZ`
is no state: the lookup of `"zz"` fails and `ZZ` is not among the table's
abbreviations; `_normalize_state` likewise accepts `"zz"` as `"ZZ"`. -/
theorem c4_counterexample :
    parse_city_state "Springfield, ZZ" = "Springfield, ZZ" ∧
    stateLookup "zz" = none ∧
    stateAbbrevVals.contains "ZZ" = false ∧
    normalize_state "zz" = some "ZZ" := by
  decide

/-- C4, witness: the priority-and-validation theorem applied to concrete
inputs — a full-state-name ZIP address takes branch 1, a two-letter ZIP
address falls through branch 1 to branch 2. -/
theorem c4_pattern_order_and_validation_witness :
    parse_city_state "Sarasota, Florida 34236" = "Sarasota, FL" ∧
    parse_city_state "Miami, FL 33101" = "Miami, FL" ∧
    (∃ city ab, "Sarasota, FL" = city ++ ", " ++ ab ∧ ab ∈ stateAbbrevVals) := by
  refine ⟨?_, ?_, ?_⟩
  · exact (c4_pattern_order_and_validation.1 "Sarasota, Florida 34236" "Sarasota, FL"
      (by decide) (by decide)).1 (by decide)
  · exact (c4_pattern_order_and_validation.1 "Miami, FL 33101" "Miami, FL"
      (by decide) (by decide)).2.1 (by decide) (by decide)
  · exact (c4_pattern_order_and_validation.2.2.1
      (pyJoinWords (replaceNbsp "Sarasota, Florida 34236")) "Sarasota, FL"
      (Or.inl (by decide)))

/-! ## Claim C6 -/

/-- C6, counterexample: `scrape_bizquest_directory` has no
`KeyboardInterrupt` handler, so an interrupt during its crawl terminates the
script before `save_to_csv` — nothing is written even though a full region
had been collected; and in `scrape_businessbroker_directory` the contacts of
the interrupted region (still local to `_scrape_state`) are lost: only the
regions already extended into `all_contacts` are flushed. -/
theorem c6_counterexample :
    scrape_bizquest_directory (.interruptedAt [[contactJaneNoPhone]] []) = none ∧
    exportPipeline [contactJaneNoPhone] ≠ [] ∧
    scrape_businessbroker_directory (.interruptedAt [] [contactJaneNoPhone]) =
      some [] := by
  decide

/-- C6, amended: three of the four scrapers (businessbroker, ibba, crexi)
catch `KeyboardInterrupt` once at the outermost loop and still deduplicate
and write the contacts of the regions completed before the interrupt (crexi
only when that list is non-empty, and in all three the partial list of the
in-progress region is lost); `scrape_bizquest_directory` has no such handler
and writes the CSV only when the crawl finishes. -/
theorem c6_interrupt_flush :
    (∀ done inProgress,
      scrape_businessbroker_directory (.interruptedAt done inProgress) =
        some (exportPipeline done.flatten)) ∧
    (∀ done inProgress,
      scrape_ibba_directory (.interruptedAt done inProgress) =
        some (exportPipeline done.flatten)) ∧
    (∀ done inProgress,
      scrape_crexi_directory (.interruptedAt done inProgress) =
        (if done.flatten.isEmpty then none
         else some (exportPipeline done.flatten))) ∧
    (∀ regions, scrape_bizquest_directory (.finished regions) =
      some (exportPipeline regions.flatten)) ∧
    (∀ done inProgress,
      scrape_bizquest_directory (.interruptedAt done inProgress) = none) := by
  exact ⟨fun _ _ => rfl, fun _ _ => rfl, fun _ _ => rfl, fun _ => rfl,
    fun _ _ => rfl⟩

/-! ## Claim C7 -/

theorem unionUrls_nil (acc : List String) : unionUrls acc [] = acc := by
  simp [unionUrls]

/-- C7, counterexample: the BizQuest pagination loop breaks on the first
fetch failure — it returns the links collected so far but does not proceed
to the next page (page 2 alone would have yielded `"u"`); and the Crexi loop
does not stop on a page with zero links — it keeps clicking Next and
collects from the following page. -/
theorem c7_counterexample :
    get_all_profile_urls_from_directory [.error (), .ok ["u"]] = [] ∧
    get_all_profile_urls_from_directory [.ok ["u"]] = ["u"] ∧
    collect_all_profile_urls 1 2 [⟨[], true, true⟩, ⟨["a"], true, true⟩] = ["a"] := by
  decide

/-- C7, amended: the BizQuest loop stops at the first page that raises or
adds zero new links (returning everything collected so far — a failure is
not skipped, it ends the pagination); the Crexi loop instead follows the
claim's failure budget: a first missing Next control is tolerated and the
loop retries, a second consecutive one stops it, while a page with zero
links never stops it by itself. -/
theorem c7_pagination :
    (∀ (rest : List PageFetch) (acc : List String),
      bizquestPageLoop (.error () :: rest) acc = acc) ∧
    (∀ pages : List PageFetch,
      get_all_profile_urls_from_directory (.error () :: pages) = []) ∧
    (∀ (startP endP : Nat) (links : List String) (co : Bool)
       (rest : List CrexiStep) (pageNum : Nat) (acc : List String),
      pageNum < endP →
      crexiCollectLoop startP endP (⟨links, false, co⟩ :: rest) pageNum 0 acc =
        crexiCollectLoop startP endP rest pageNum 1
          (if startP ≤ pageNum then unionUrls acc links else acc)) ∧
    (∀ (startP endP : Nat) (co : Bool) (rest : List CrexiStep)
       (pageNum : Nat) (acc : List String),
      pageNum < endP →
      crexiCollectLoop startP endP (⟨[], false, co⟩ :: rest) pageNum 1 acc = acc) ∧
    (∀ (startP endP : Nat) (rest : List CrexiStep) (pageNum fails : Nat)
       (acc : List String),
      pageNum < endP →
      crexiCollectLoop startP endP (⟨[], true, true⟩ :: rest) pageNum fails acc =
        crexiCollectLoop startP endP rest (pageNum + 1) 0 acc) := by
  refine ⟨fun _ _ => rfl, ?_, ?_, ?_, ?_⟩
  · intro pages
    show bizquestPageLoop ((Except.error () :: pages).take 60) [] = []
    rw [List.take_succ_cons]
    rfl
  · intro startP endP links co rest pageNum acc hlt
    conv_lhs => unfold crexiCollectLoop
    simp [Nat.not_le.mpr hlt]
  · intro startP endP co rest pageNum acc hlt
    conv_lhs => unfold crexiCollectLoop
    simp [Nat.not_le.mpr hlt, unionUrls_nil]
  · intro startP endP rest pageNum fails acc hlt
    conv_lhs => unfold crexiCollectLoop
    simp [Nat.not_le.mpr hlt, unionUrls_nil]

/-- C7, witness: the pagination theorem applied at concrete loop states. -/
theorem c7_pagination_witness :
    get_all_profile_urls_from_directory
      (Except.error () :: [Except.ok ["u"], Except.ok ["v"]]) = [] ∧
    crexiCollectLoop 1 5 [⟨["x"], false, true⟩] 1 0 [] =
      crexiCollectLoop 1 5 [] 1 1 (if 1 ≤ 1 then unionUrls [] ["x"] else []) ∧
    crexiCollectLoop 1 5 [⟨[], false, true⟩] 1 1 ["k"] = ["k"] ∧
    crexiCollectLoop 1 5 [⟨[], true, true⟩, ⟨["a"], true, true⟩] 1 0 [] =
      crexiCollectLoop 1 5 [⟨["a"], true, true⟩] 2 0 [] := by
  refine ⟨c7_pagination.2.1 _, ?_, ?_, ?_⟩
  · exact c7_pagination.2.2.1 1 5 ["x"] true [] 1 [] (by decide)
  · exact c7_pagination.2.2.2.1 1 5 true [] 1 ["k"] (by decide)
  · exact c7_pagination.2.2.2.2 1 5 [⟨["a"], true, true⟩] 1 0 [] (by decide)

/-! ## Claim C8 -/

/-- C8, counterexample: a navigation failure on the initial state-page load
in `businessbroker_scraper.py` escalates to a fatal crash — the enclosing
handler catches only `KeyboardInterrupt`, so this non-spreadsheet failure
category terminates the process, contradicting the claim that no other
failure category is escalated. -/
theorem c8_counterexample :
    businessbroker_run (.error "playwright.TimeoutError on page.goto") =
      .error "playwright.TimeoutError on page.goto" ∧
    "playwright.TimeoutError on page.goto" ≠ GSPREAD_MISSING_MSG := by
  exact ⟨rfl, by decide⟩

/-- C8, amended: each of the three spreadsheet operations raises the
library-missing error first, before performing any spreadsheet action; but
the crash-exemption half of the claim fails: a page-navigation error on the
initial state-page load of businessbroker also escalates uncaught. -/
theorem c8_sheets_error_first :
    (∀ (rows : List CsvRow) (sheetId wsName : String),
      upload_dataframe_to_google_sheet false rows sheetId wsName =
        .error GSPREAD_MISSING_MSG) ∧
    (∀ sheetId wsName : String,
      clear_worksheet_data false sheetId wsName = .error GSPREAD_MISSING_MSG) ∧
    (∀ (row : List String) (sheetId wsName : String),
      append_row_to_google_sheet false row sheetId wsName =
        .error GSPREAD_MISSING_MSG) ∧
    (∀ e : String, businessbroker_run (.error e) = .error e) := by
  exact ⟨fun _ _ _ => rfl, fun _ _ => rfl, fun _ _ _ => rfl, fun _ => rfl⟩

end ECW
